import Mathlib

/-! ## Verification of the competitive phone manufacturing simulation

A shallow embedding of the market-simulation core of `manufacturing_sim.py`:
the product blueprints, the customer cohort population, the monthly
matching/allocation pass (`simulate_purchases`), and the brand-reputation
feedback (`calculate_brand_reputation_changes`, `reject_repairs`,
`repair_devices`), together with theorems about the properties the
specification claims for them.

Modelling conventions:
* Python `int` is modelled as `Int`; Python `float` as `ℚ` (exact rational
  arithmetic; every float computation relevant to a theorem below either is
  exact in IEEE double as well, or only its comparison order at concrete small
  inputs matters).
* Python `dict` is modelled as an insertion-ordered association list
  (`List (κ × α)`) with first-match lookup and update-first-or-append
  assignment, which coincides with dict semantics whenever keys are unique.
* Python methods that print and mutate `self` become pure functions returning
  the new state (and the method's return value where it has one).
-/

namespace PhoneSim

/-- First-match lookup in an association list (Python `d.get(k)` / `k in d`). -/
def dictGet {κ α : Type} [DecidableEq κ] (l : List (κ × α)) (k : κ) : Option α :=
  (l.find? (fun e => e.1 = k)).map (·.2)

/-- Lookup with default (Python `d.get(k, d0)`). -/
def dictGetD {κ α : Type} [DecidableEq κ] (l : List (κ × α)) (k : κ) (d : α) : α :=
  (dictGet l k).getD d

/-- Assignment `d[k] = v`: replace the first binding of `k`, else append. -/
def dictSet {κ α : Type} [DecidableEq κ] : List (κ × α) → κ → α → List (κ × α)
  | [], k, v => [(k, v)]
  | e :: rest, k, v => if e.1 = k then (k, v) :: rest else e :: dictSet rest k v

/-- In-place additive update `d[k] = d.get(k, 0) + v`. -/
def dictAdd {κ : Type} [DecidableEq κ] (l : List (κ × Int)) (k : κ) (v : Int) :
    List (κ × Int) :=
  dictSet l k (dictGetD l k 0 + v)

/-- Deletion `del d[k]` (removes the first binding of `k`). -/
def dictErase {κ α : Type} [DecidableEq κ] : List (κ × α) → κ → List (κ × α)
  | [], _ => []
  | e :: rest, k => if e.1 = k then rest else e :: dictErase rest k

/-- `PART_COSTS`: per-part, per-tier base cost table.  Out-of-range tiers
(which would raise `KeyError` in Python) are mapped to cost 0; no theorem
below depends on an out-of-range tier. -/
def PART_COSTS (part : String) (tier : Nat) : Int :=
  let pick : List Int → Int := fun l => (l.getD (tier - 1) 0)
  if tier = 0 ∨ tier > 10 then 0
  else if part = "soc" then pick [15, 40, 80, 160, 320, 600, 1000, 1600, 2500, 4000]
  else if part = "screen" then pick [12, 30, 65, 130, 260, 480, 800, 1300, 2000, 3200]
  else if part = "ram" then pick [8, 20, 45, 90, 180, 350, 600, 1000, 1600, 2600]
  else if part = "storage" then pick [7, 18, 40, 80, 160, 300, 520, 900, 1450, 2400]
  else if part = "battery" then pick [5, 15, 35, 70, 140, 260, 450, 780, 1250, 2100]
  else if part = "camera" then pick [4, 12, 28, 60, 120, 230, 400, 700, 1100, 1900]
  else if part = "casing" then pick [3, 8, 20, 45, 90, 180, 320, 560, 900, 1500]
  else if part = "fingerprint" then pick [3, 8, 18, 40, 80, 150, 270, 470, 750, 1250]
  else 0

/-- `MARKET_SIZE` constant. -/
def MARKET_SIZE : Int := 20000

/-- `BASE_REPLACEMENT_TIME` constant. -/
def BASE_REPLACEMENT_TIME : Int := 20

/-- `GAMER_REPLACEMENT_TIME` constant. -/
def GAMER_REPLACEMENT_TIME : Int := 16

/-- `CAMERA_CHECK_INTERVAL` constant. -/
def CAMERA_CHECK_INTERVAL : Int := 3

/-- `CUSTOMER_TIER_DISTRIBUTION` (tier name, share of the market). -/
def CUSTOMER_TIER_DISTRIBUTION : List (String × ℚ) :=
  [("Entry Level", 15/100), ("Budget", 30/100), ("Midrange", 40/100),
   ("High End", 10/100), ("Flagship", 5/100)]

/-- Preference weights of one customer type over the seven core components. -/
structure Prefs where
  soc : Int
  ram : Int
  battery : Int
  screen : Int
  camera : Int
  storage : Int
  casing : Int
deriving DecidableEq, Repr

/-- The keys of `CUSTOMER_TYPES`, in dict insertion order. -/
def customer_types_list : List String :=
  ["Gamer", "Camera Enthusiast", "Social Media User", "Storage Seeker",
   "Design Lover", "Value Hunter", "Battery Enthusiast", "Performance Seeker",
   "Display Enthusiast", "All-Rounder"]

/-- `CUSTOMER_TYPES[name]`: preference weights per customer type.  An unknown
name (a `KeyError` in Python, unreachable from the simulation's own states)
is mapped to all-zero weights. -/
def CUSTOMER_TYPES (name : String) : Prefs :=
  if name = "Gamer" then
    ⟨10, 8, 6, 4, 2, 3, 1⟩
  else if name = "Camera Enthusiast" then
    ⟨3, 2, 3, 5, 10, 4, 2⟩
  else if name = "Social Media User" then
    ⟨3, 2, 7, 7, 8, 4, 3⟩
  else if name = "Storage Seeker" then
    ⟨4, 4, 4, 3, 3, 10, 2⟩
  else if name = "Design Lover" then
    ⟨3, 2, 3, 7, 5, 2, 10⟩
  else if name = "Value Hunter" then
    ⟨6, 5, 5, 4, 4, 5, 3⟩
  else if name = "Battery Enthusiast" then
    ⟨4, 3, 10, 4, 3, 3, 2⟩
  else if name = "Performance Seeker" then
    ⟨9, 9, 4, 3, 2, 5, 2⟩
  else if name = "Display Enthusiast" then
    ⟨3, 3, 4, 10, 5, 2, 2⟩
  else if name = "All-Rounder" then
    ⟨5, 5, 5, 5, 5, 5, 5⟩
  else ⟨0, 0, 0, 0, 0, 0, 0⟩

/-- `PhoneBlueprint`: a phone design.  Quality strings are "Low", "Normal" or
"High" exactly as in the source. -/
structure PhoneBlueprint where
  name : String
  ram_tier : Nat
  soc_tier : Nat
  screen_tier : Nat
  battery_tier : Nat
  camera_tier : Nat
  casing_tier : Nat
  storage_tier : Nat
  fingerprint_tier : Nat
  sell_price : Int
  ram_quality : String := "Normal"
  soc_quality : String := "Normal"
  screen_quality : String := "Normal"
  battery_quality : String := "Normal"
  camera_quality : String := "Normal"
  casing_quality : String := "Normal"
  storage_quality : String := "Normal"
  fingerprint_quality : String := "Normal"
deriving DecidableEq, Repr

namespace PhoneBlueprint

/-- Quality cost multiplier: Low 0.5x, Normal 1.0x, High 1.5x. -/
def apply_quality_multiplier (base_cost : Int) (quality : String) : ℚ :=
  if quality = "Low" then (base_cost : ℚ) * (1/2)
  else if quality = "High" then (base_cost : ℚ) * (3/2)
  else (base_cost : ℚ)

/-- `get_production_cost`: quality-multiplied sum of part costs, truncated to
int (all summands are non-negative, so `int()` is the floor). -/
def get_production_cost (bp : PhoneBlueprint) : Int :=
  let cost : ℚ :=
    apply_quality_multiplier (PART_COSTS "ram" bp.ram_tier) bp.ram_quality +
    apply_quality_multiplier (PART_COSTS "soc" bp.soc_tier) bp.soc_quality +
    apply_quality_multiplier (PART_COSTS "screen" bp.screen_tier) bp.screen_quality +
    apply_quality_multiplier (PART_COSTS "battery" bp.battery_tier) bp.battery_quality +
    apply_quality_multiplier (PART_COSTS "camera" bp.camera_tier) bp.camera_quality +
    apply_quality_multiplier (PART_COSTS "casing" bp.casing_tier) bp.casing_quality +
    apply_quality_multiplier (PART_COSTS "storage" bp.storage_tier) bp.storage_quality +
    (if bp.fingerprint_tier > 0 then
      apply_quality_multiplier (PART_COSTS "fingerprint" bp.fingerprint_tier) bp.fingerprint_quality
     else 0)
  ⌊cost⌋

/-- `get_repair_cost`: 25% of the production cost, truncated to int. -/
def get_repair_cost (bp : PhoneBlueprint) : Int :=
  ⌊(bp.get_production_cost : ℚ) * (1/4)⌋

/-- `calculate_score`: fixed-weight quality score (fingerprint excluded). -/
def calculate_score (bp : PhoneBlueprint) : Int :=
  (bp.soc_tier : Int) * 5 + (bp.battery_tier : Int) * 4 + (bp.screen_tier : Int) * 3 +
  (bp.ram_tier : Int) * 3 + (bp.camera_tier : Int) * 2 + (bp.storage_tier : Int) * 2 +
  (bp.casing_tier : Int) * 1

/-- `get_tier_name`: market-tier label from the score and the global tech
level (thresholds shift up 20 points per tech level). -/
def get_tier_name (bp : PhoneBlueprint) (global_tech_level : Int) : String :=
  let score := bp.calculate_score
  let threshold_shift := (global_tech_level - 1) * 20
  if score ≤ 20 + threshold_shift then "Entry Level"
  else if score ≤ 40 + threshold_shift then "Budget"
  else if score ≤ 60 + threshold_shift then "Midrange"
  else if score ≤ 80 + threshold_shift then "High End"
  else "Flagship"

end PhoneBlueprint

/-- `CustomerGroup`: a cohort of identical buyers. -/
structure CustomerGroup where
  tier : String
  customer_type : String
  count : Int
  owned_phone_company : Option String := none
  owned_phone_blueprint : Option String := none
  purchase_month : Option Int := none
  last_camera_check_month : Option Int := none
deriving DecidableEq, Repr

namespace CustomerGroup

/-- `evaluate_phone`: preference-weighted component score, with the Value
Hunter price penalty. -/
def evaluate_phone (g : CustomerGroup) (phone : PhoneBlueprint) : ℚ :=
  let p := CUSTOMER_TYPES g.customer_type
  let score : ℚ :=
    ((phone.soc_tier : Int) * p.soc + (phone.ram_tier : Int) * p.ram +
     (phone.battery_tier : Int) * p.battery + (phone.screen_tier : Int) * p.screen +
     (phone.camera_tier : Int) * p.camera + (phone.storage_tier : Int) * p.storage +
     (phone.casing_tier : Int) * p.casing : Int)
  if g.customer_type = "Value Hunter" then
    score - (phone.sell_price : ℚ) / 5000 * 20
  else score

end CustomerGroup

/-- `calculate_phone_lifecycle`: expected holding time in months for a given
blueprint and customer type (a `CustomerMarket` method that does not read the
market state).  Mirrors the source: a type-dependent base, a fold over the
part tiers (fingerprint included when present), a fold over the part
qualities (fingerprint included when present), the extra battery bonus, and
the minimum clamp at 6. -/
def calculate_phone_lifecycle (blueprint : PhoneBlueprint) (customer_type : String) : Int :=
  let base_time : Int :=
    if customer_type = "Gamer" then GAMER_REPLACEMENT_TIME else BASE_REPLACEMENT_TIME
  let parts_tiers : List Nat :=
    [blueprint.ram_tier, blueprint.soc_tier, blueprint.screen_tier,
     blueprint.battery_tier, blueprint.camera_tier, blueprint.casing_tier,
     blueprint.storage_tier] ++
    (if blueprint.fingerprint_tier > 0 then [blueprint.fingerprint_tier] else [])
  let tier_bonus : Int := parts_tiers.foldl
    (fun acc tier => if tier ≥ 4 then acc + 1 else if tier ≤ 2 then acc - 1 else acc) 0
  let parts_qualities : List String :=
    [blueprint.ram_quality, blueprint.soc_quality, blueprint.screen_quality,
     blueprint.battery_quality, blueprint.camera_quality, blueprint.casing_quality,
     blueprint.storage_quality] ++
    (if blueprint.fingerprint_tier > 0 then [blueprint.fingerprint_quality] else [])
  let quality_bonus : Int := parts_qualities.foldl
    (fun acc q => if q = "High" then acc + 1 else if q = "Low" then acc - 1 else acc) 0
  let quality_bonus := if blueprint.battery_quality = "High" then quality_bonus + 1 else quality_bonus
  let total_lifecycle := base_time + tier_bonus + quality_bonus
  max 6 total_lifecycle

/-! ## Spec-side replacement-time formula and the lifecycle closed form -/

/-- Spec-side tier adjustment: +1 month per component at tier ≥ 4, −1 at
tier ≤ 2, tier 3 neutral. -/
def tierAdj (t : Nat) : Int := if t ≥ 4 then 1 else if t ≤ 2 then -1 else 0

/-- Spec-side quality adjustment: +1 per Premium ("High") component, −1 per
Reduced ("Low") component. -/
def qualAdj (q : String) : Int := if q = "High" then 1 else if q = "Low" then -1 else 0

/-- Spec-side extra battery bonus: one additional +1 for a Premium battery. -/
def batteryAdj (q : String) : Int := if q = "High" then 1 else 0

/-- The replacement-time formula in the spec's words, with the one amendment
the code forces: the optional (fingerprint) component, when present, counts
in both the tier and the quality adjustment exactly like a mandatory one. -/
def lifecycleSpec (bp : PhoneBlueprint) (ct : String) : Int :=
  max 6 ((if ct = "Gamer" then 16 else 20)
    + (tierAdj bp.ram_tier + tierAdj bp.soc_tier + tierAdj bp.screen_tier +
       tierAdj bp.battery_tier + tierAdj bp.camera_tier + tierAdj bp.casing_tier +
       tierAdj bp.storage_tier +
       (if bp.fingerprint_tier > 0 then tierAdj bp.fingerprint_tier else 0))
    + (qualAdj bp.ram_quality + qualAdj bp.soc_quality + qualAdj bp.screen_quality +
       qualAdj bp.battery_quality + qualAdj bp.camera_quality + qualAdj bp.casing_quality +
       qualAdj bp.storage_quality +
       (if bp.fingerprint_tier > 0 then qualAdj bp.fingerprint_quality else 0) +
       batteryAdj bp.battery_quality))

theorem foldl_tierStep (l : List Nat) (a : Int) :
    l.foldl (fun acc tier => if tier ≥ 4 then acc + 1 else if tier ≤ 2 then acc - 1 else acc) a
      = a + (l.map tierAdj).sum := by
  induction l generalizing a with
  | nil => simp
  | cons x xs ih =>
    simp only [List.foldl_cons, List.map_cons, List.sum_cons, ih, tierAdj]
    split_ifs <;> ring

theorem foldl_qualStep (l : List String) (a : Int) :
    l.foldl (fun acc q => if q = "High" then acc + 1 else if q = "Low" then acc - 1 else acc) a
      = a + (l.map qualAdj).sum := by
  induction l generalizing a with
  | nil => simp
  | cons x xs ih =>
    simp only [List.foldl_cons, List.map_cons, List.sum_cons, ih, qualAdj]
    split_ifs <;> ring

/-- The computed lifecycle equals the closed-form spec formula. -/
theorem calculate_phone_lifecycle_closed (bp : PhoneBlueprint) (ct : String) :
    calculate_phone_lifecycle bp ct = lifecycleSpec bp ct := by
  unfold calculate_phone_lifecycle lifecycleSpec
  simp only [foldl_tierStep, foldl_qualStep, GAMER_REPLACEMENT_TIME, BASE_REPLACEMENT_TIME,
    List.map_append, List.sum_append, List.map_cons, List.map_nil, List.sum_cons, List.sum_nil,
    batteryAdj]
  by_cases hf : bp.fingerprint_tier > 0 <;> by_cases hb : bp.battery_quality = "High" <;>
    simp [hf, hb] <;> ring_nf

/-! ## Component indexing, for the monotonicity claims -/

/-- One of the eight component slots of a blueprint. -/
inductive Part where
  | ram | soc | screen | battery | camera | casing | storage | fingerprint
deriving DecidableEq, Repr

/-- The tier of the given component slot. -/
def PhoneBlueprint.tierOf (bp : PhoneBlueprint) : Part → Nat
  | .ram => bp.ram_tier
  | .soc => bp.soc_tier
  | .screen => bp.screen_tier
  | .battery => bp.battery_tier
  | .camera => bp.camera_tier
  | .casing => bp.casing_tier
  | .storage => bp.storage_tier
  | .fingerprint => bp.fingerprint_tier

/-- Replace the tier of the given component slot. -/
def PhoneBlueprint.setTierOf (bp : PhoneBlueprint) : Part → Nat → PhoneBlueprint
  | .ram, t => { bp with ram_tier := t }
  | .soc, t => { bp with soc_tier := t }
  | .screen, t => { bp with screen_tier := t }
  | .battery, t => { bp with battery_tier := t }
  | .camera, t => { bp with camera_tier := t }
  | .casing, t => { bp with casing_tier := t }
  | .storage, t => { bp with storage_tier := t }
  | .fingerprint, t => { bp with fingerprint_tier := t }

/-- The quality string of the given component slot. -/
def PhoneBlueprint.qualityOf (bp : PhoneBlueprint) : Part → String
  | .ram => bp.ram_quality
  | .soc => bp.soc_quality
  | .screen => bp.screen_quality
  | .battery => bp.battery_quality
  | .camera => bp.camera_quality
  | .casing => bp.casing_quality
  | .storage => bp.storage_quality
  | .fingerprint => bp.fingerprint_quality

/-- Replace the quality string of the given component slot. -/
def PhoneBlueprint.setQualityOf (bp : PhoneBlueprint) : Part → String → PhoneBlueprint
  | .ram, q => { bp with ram_quality := q }
  | .soc, q => { bp with soc_quality := q }
  | .screen, q => { bp with screen_quality := q }
  | .battery, q => { bp with battery_quality := q }
  | .camera, q => { bp with camera_quality := q }
  | .casing, q => { bp with casing_quality := q }
  | .storage, q => { bp with storage_quality := q }
  | .fingerprint, q => { bp with fingerprint_quality := q }

/-- Rank of a quality grade: Reduced ("Low") 0 < Standard ("Normal") 1 <
Premium ("High") 2.  Unknown strings behave like "Normal" throughout the
source, hence rank 1. -/
def qualRank (q : String) : Int := if q = "High" then 2 else if q = "Low" then 0 else 1

theorem tierAdj_mono {t t' : Nat} (h : t ≤ t') : tierAdj t ≤ tierAdj t' := by
  unfold tierAdj; split_ifs <;> omega

theorem qualAdj_mono {q q' : String} (h : qualRank q ≤ qualRank q') :
    qualAdj q ≤ qualAdj q' := by
  unfold qualRank at h; unfold qualAdj; split_ifs at h ⊢ <;> simp_all

theorem batteryAdj_mono {q q' : String} (h : qualRank q ≤ qualRank q') :
    batteryAdj q ≤ batteryAdj q' := by
  unfold qualRank at h; unfold batteryAdj; split_ifs at h ⊢ <;> simp_all

/-! ## Concrete sample blueprints used by counterexamples and witnesses -/

/-- An all-tier-3, all-Normal blueprint with no fingerprint component. -/
def bpPlain : PhoneBlueprint :=
  { name := "Plain", ram_tier := 3, soc_tier := 3, screen_tier := 3, battery_tier := 3,
    camera_tier := 3, casing_tier := 3, storage_tier := 3, fingerprint_tier := 0,
    sell_price := 500 }

/-- `bpPlain` with a tier-5 (Normal-quality) fingerprint component added:
it differs from `bpPlain` only in the optional component. -/
def bpWithFp : PhoneBlueprint := { bpPlain with fingerprint_tier := 5 }

/-- C3, counterexample.  The claim says the optional component contributes
nothing to the replacement time.  `bpWithFp` differs from `bpPlain` only in
the optional fingerprint slot (tier 5 instead of absent), yet the computed
replacement time for the same customer type moves from 20 to 21 months: the
optional component's tier is counted by the code. -/
theorem C3_counterexample :
    calculate_phone_lifecycle bpPlain "All-Rounder" = 20 ∧
    calculate_phone_lifecycle bpWithFp "All-Rounder" = 21 ∧
    bpWithFp = { bpPlain with fingerprint_tier := 5 } := by
  refine ⟨by decide, by decide, rfl⟩

/-- C3, amended.  For every blueprint and customer type, the replacement time
equals the type-dependent base (16 for the performance-driven "Gamer" type,
20 for all others) plus +1 per component at tier ≥ 4 and −1 per component at
tier ≤ 2 (tier 3 neutral), plus +1 per Premium-quality component and −1 per
Reduced-quality component, plus one additional +1 when the battery is
Premium, clamped below at 6 months — where, amending the claim, the optional
fingerprint component, when present, is counted in the tier and quality terms
exactly like a mandatory component. -/
theorem C3_lifecycle_formula (bp : PhoneBlueprint) (ct : String) :
    calculate_phone_lifecycle bp ct = lifecycleSpec bp ct :=
  calculate_phone_lifecycle_closed bp ct

/-- C8.  The replacement time is monotonically non-decreasing when any single
component tier above 3 is increased, monotonically non-decreasing when any
single component's quality grade is raised (Reduced → Standard → Premium),
and never below 6 months. -/
theorem C8_lifecycle_monotone :
    (∀ (bp : PhoneBlueprint) (ct : String) (p : Part) (t' : Nat),
      3 < bp.tierOf p → bp.tierOf p ≤ t' →
      calculate_phone_lifecycle bp ct ≤ calculate_phone_lifecycle (bp.setTierOf p t') ct) ∧
    (∀ (bp : PhoneBlueprint) (ct : String) (p : Part) (q' : String),
      qualRank (bp.qualityOf p) ≤ qualRank q' →
      calculate_phone_lifecycle bp ct ≤ calculate_phone_lifecycle (bp.setQualityOf p q') ct) ∧
    (∀ (bp : PhoneBlueprint) (ct : String), 6 ≤ calculate_phone_lifecycle bp ct) := by
  refine ⟨?_, ?_, ?_⟩
  · intro bp ct p t' h3 hle
    rw [calculate_phone_lifecycle_closed, calculate_phone_lifecycle_closed]
    have hmono := tierAdj_mono hle
    cases p <;>
      simp only [lifecycleSpec, PhoneBlueprint.setTierOf, PhoneBlueprint.tierOf] at * <;>
      omega
  · intro bp ct p q' h
    rw [calculate_phone_lifecycle_closed, calculate_phone_lifecycle_closed]
    have hq := qualAdj_mono h
    cases p <;>
      simp only [lifecycleSpec, PhoneBlueprint.setQualityOf, PhoneBlueprint.qualityOf] at * <;>
      try omega
    -- battery: both the quality term and the extra battery bonus are monotone
    have hb := batteryAdj_mono h
    omega
  · intro bp ct
    rw [calculate_phone_lifecycle_closed]
    exact le_max_left 6 _

/-- C8, witness: the three parts of `C8_lifecycle_monotone` applied at
concrete inputs (raising the tier-5 fingerprint of `bpWithFp` to 7, raising
`bpPlain`'s screen quality from Normal to High, and the lower clamp). -/
theorem C8_lifecycle_monotone_witness :
    calculate_phone_lifecycle bpWithFp "Gamer" ≤
      calculate_phone_lifecycle (bpWithFp.setTierOf Part.fingerprint 7) "Gamer" ∧
    calculate_phone_lifecycle bpPlain "Gamer" ≤
      calculate_phone_lifecycle (bpPlain.setQualityOf Part.screen "High") "Gamer" ∧
    6 ≤ calculate_phone_lifecycle bpPlain "Gamer" :=
  ⟨C8_lifecycle_monotone.1 bpWithFp "Gamer" Part.fingerprint 7 (by decide) (by decide),
   C8_lifecycle_monotone.2.1 bpPlain "Gamer" Part.screen "High" (by decide),
   C8_lifecycle_monotone.2.2 bpPlain "Gamer"⟩

/-! ## Manufacturer state and the reputation / repair operations -/

/-- `Player`: the slice of manufacturer state that the verified operations
read or write (R&D fields, the manufacturing queue and display-only fields
are neither read nor written by the embedded methods and are omitted). -/
structure Player where
  name : String
  money : Int
  blueprints : List PhoneBlueprint
  manufactured_phones : List (String × Int)
  sold_devices : List (String × Int)
  pending_repairs : List (String × Int)
  brand_reputation : ℚ
  price_history : List (String × List (Int × Int))
  rejected_repairs_this_month : Int
deriving DecidableEq, Repr

/-- Whether any component of the blueprint uses Low quality (the fingerprint
slot only counts when the fingerprint component is present). -/
def blueprintHasLowQuality (bp : PhoneBlueprint) : Bool :=
  decide (bp.ram_quality = "Low" ∨ bp.soc_quality = "Low" ∨ bp.screen_quality = "Low" ∨
    bp.battery_quality = "Low" ∨ bp.camera_quality = "Low" ∨ bp.casing_quality = "Low" ∨
    bp.storage_quality = "Low" ∨ (bp.fingerprint_tier > 0 ∧ bp.fingerprint_quality = "Low"))

/-- Whether any component of the blueprint uses High quality. -/
def blueprintHasHighQuality (bp : PhoneBlueprint) : Bool :=
  decide (bp.ram_quality = "High" ∨ bp.soc_quality = "High" ∨ bp.screen_quality = "High" ∨
    bp.battery_quality = "High" ∨ bp.camera_quality = "High" ∨ bp.casing_quality = "High" ∨
    bp.storage_quality = "High" ∨ (bp.fingerprint_tier > 0 ∧ bp.fingerprint_quality = "High"))

/-- The last three recorded prices of one blueprint (`price_records[-3:]`). -/
def recentPrices (recs : List (Int × Int)) : List Int :=
  (recs.drop (recs.length - 3)).map (·.2)

/-- Whether consecutive prices show a month-over-month change above 20%
(the source breaks at the first such pair; the result is the same). -/
def hasSwing : List Int → Bool
  | p1 :: p2 :: rest =>
      if p1 > 0 ∧ |(p2 : ℚ) - (p1 : ℚ)| / (p1 : ℚ) * 100 > 20 then true
      else hasSwing (p2 :: rest)
  | _ => false

/-- `calculate_brand_reputation_changes`: the monthly reputation
recomputation.  Returns the total (integer) change and the updated player:
the reputation is moved by the total change and clamped to [0, 100], and the
rejected-repairs counter is reset to 0. -/
def Player.calculate_brand_reputation_changes (p : Player) (global_tech_level : Int) :
    Int × Player :=
  let build_penalty : Int := p.blueprints.countP (fun bp =>
    decide ((bp.get_tier_name global_tech_level = "Flagship" ∨
             bp.get_tier_name global_tech_level = "High End") ∧ bp.casing_tier ≤ 2))
  let low_quality_count : Int := p.blueprints.countP blueprintHasLowQuality
  let high_quality_count : Int := p.blueprints.countP blueprintHasHighQuality
  let swing_count : Int := p.price_history.countP (fun e =>
    decide (3 ≤ e.2.length) && hasSwing (recentPrices e.2))
  let total_change : Int :=
    - build_penalty
    - (if low_quality_count > 0 then 2 * low_quality_count else 0)
    + (if high_quality_count > 0 then 2 * high_quality_count else 0)
    - 2 * swing_count
    - (if p.rejected_repairs_this_month > 0 then min p.rejected_repairs_this_month 10 else 0)
  (total_change,
   { p with brand_reputation := max 0 (min 100 (p.brand_reputation + (total_change : ℚ))),
            rejected_repairs_this_month := 0 })

/-- `reject_repairs`: clear pending repairs without paying, accruing the
monthly rejected-repairs counter. -/
def Player.reject_repairs (p : Player) (blueprint_name : String) (quantity : Int) :
    Bool × Player :=
  if dictGetD p.pending_repairs blueprint_name 0 ≤ 0 then (false, p)
  else if quantity ≤ 0 then (false, p)
  else if quantity > dictGetD p.pending_repairs blueprint_name 0 then (false, p)
  else
    let v := dictGetD p.pending_repairs blueprint_name 0 - quantity
    let pending := if v ≤ 0 then dictErase p.pending_repairs blueprint_name
                   else dictSet p.pending_repairs blueprint_name v
    (true, { p with pending_repairs := pending,
                    rejected_repairs_this_month := p.rejected_repairs_this_month + quantity })

/-- `repair_devices`: pay the repair cost and clear the given quantity of
pending repairs for one blueprint.  Every validation failure returns `false`
with the player unchanged; the checks appear in source order. -/
def Player.repair_devices (p : Player) (blueprint_name : String) (quantity : Int) :
    Bool × Player :=
  if dictGetD p.pending_repairs blueprint_name 0 ≤ 0 then (false, p)
  else if quantity ≤ 0 then (false, p)
  else if quantity > dictGetD p.pending_repairs blueprint_name 0 then (false, p)
  else
    match p.blueprints.find? (fun bp => bp.name = blueprint_name) with
    | none => (false, p)
    | some blueprint =>
      let total_cost := blueprint.get_repair_cost * quantity
      if p.money < total_cost then (false, p)
      else
        let v := dictGetD p.pending_repairs blueprint_name 0 - quantity
        let pending := if v ≤ 0 then dictErase p.pending_repairs blueprint_name
                       else dictSet p.pending_repairs blueprint_name v
        (true, { p with money := p.money - total_cost, pending_repairs := pending })

/-! ## Reputation-bound and repair claims -/

/-- One reputation-affecting event: a monthly recomputation against an
arbitrary catalog / price-history / rejected-repairs snapshot, or a retention
adjustment from the allocation pass (applied only when non-zero, as in the
source). -/
inductive RepEvent where
  | monthly (blueprints : List PhoneBlueprint)
      (price_history : List (String × List (Int × Int))) (rejected : Int) (gtl : Int)
  | retention (change : Int)

/-- Apply one reputation event to a reputation value, exactly as the two
source sites do. -/
def applyRepEvent (rep : ℚ) : RepEvent → ℚ
  | RepEvent.monthly bps ph rej gtl =>
      (Player.calculate_brand_reputation_changes
        { name := "", money := 0, blueprints := bps, manufactured_phones := [],
          sold_devices := [], pending_repairs := [], brand_reputation := rep,
          price_history := ph, rejected_repairs_this_month := rej } gtl).2.brand_reputation
  | RepEvent.retention c => if c ≠ 0 then max 0 (min 100 (rep + (c : ℚ))) else rep

theorem applyRepEvent_bounds (rep : ℚ) (ev : RepEvent) (h0 : 0 ≤ rep) (h1 : rep ≤ 100) :
    0 ≤ applyRepEvent rep ev ∧ applyRepEvent rep ev ≤ 100 := by
  cases ev with
  | monthly bps ph rej gtl =>
    simp only [applyRepEvent, Player.calculate_brand_reputation_changes]
    constructor
    · exact le_max_left 0 _
    · exact max_le (by norm_num) (min_le_left 100 _)
  | retention c =>
    simp only [applyRepEvent]
    split_ifs
    · exact ⟨le_max_left 0 _, max_le (by norm_num) (min_le_left 100 _)⟩
    · exact ⟨h0, h1⟩

theorem foldl_rep_bounds (evs : List RepEvent) (rep : ℚ) (h0 : 0 ≤ rep) (h1 : rep ≤ 100) :
    0 ≤ evs.foldl applyRepEvent rep ∧ evs.foldl applyRepEvent rep ≤ 100 := by
  induction evs generalizing rep with
  | nil => exact ⟨h0, h1⟩
  | cons e rest ih =>
    exact ih _ (applyRepEvent_bounds rep e h0 h1).1 (applyRepEvent_bounds rep e h0 h1).2

/-- C6.  Starting from the initial reputation 50, any sequence of monthly
recomputations (`calculate_brand_reputation_changes`, over arbitrary catalog,
price-history and rejected-repair snapshots) and retention adjustments (with
arbitrary deltas, applied as in the allocation pass) keeps the reputation
within [0, 100]. -/
theorem C6_reputation_bounded (evs : List RepEvent) :
    0 ≤ evs.foldl applyRepEvent 50 ∧ evs.foldl applyRepEvent 50 ≤ 100 :=
  foldl_rep_bounds evs 50 (by norm_num) (by norm_num)

/-- C7.  In the monthly recomputation, the repair-rejection contribution to
the reputation delta is exactly `-min(rejected, 10)` (−1 per rejection,
capped at −10): the delta computed for a player equals the delta computed
with the rejection counter cleared, minus `min(rejected, 10)`; and the
rejected-repairs counter is reset to 0 by the recomputation. -/
theorem C7_rejection_penalty (p : Player) (gtl : Int)
    (h : 0 ≤ p.rejected_repairs_this_month) :
    (p.calculate_brand_reputation_changes gtl).1
      = ({ p with rejected_repairs_this_month := 0 }.calculate_brand_reputation_changes gtl).1
        - min p.rejected_repairs_this_month 10 ∧
    (p.calculate_brand_reputation_changes gtl).2.rejected_repairs_this_month = 0 := by
  simp only [Player.calculate_brand_reputation_changes]
  constructor
  · split_ifs <;> omega
  · trivial

/-- A player whose only non-trivial state is 15 rejected repairs this month. -/
def pReject15 : Player :=
  { name := "A", money := 0, blueprints := [], manufactured_phones := [],
    sold_devices := [], pending_repairs := [], brand_reputation := 50,
    price_history := [], rejected_repairs_this_month := 15 }

/-- C7, witness: rejecting 15 repairs in one month contributes exactly −10
(capped), not −15, and the counter is reset. -/
theorem C7_rejection_penalty_witness :
    (pReject15.calculate_brand_reputation_changes 1).1
      = ({ pReject15 with rejected_repairs_this_month := 0 }.calculate_brand_reputation_changes 1).1
        - 10 ∧
    (pReject15.calculate_brand_reputation_changes 1).2.rejected_repairs_this_month = 0 := by
  have h := C7_rejection_penalty pReject15 1 (by decide)
  simpa using h

/-- C9.  `repair_devices` returns a failure result with the player's money
and pending-repair state (indeed the whole player) unchanged whenever the
requested quantity is non-positive, exceeds the pending count for that
product, the blueprint is not found, or funds are insufficient; and a
successful repair never exceeds the pending count. -/
theorem C9_repair_devices_safe :
    (∀ (p : Player) (bn : String) (q : Int),
      (q ≤ 0 ∨ dictGetD p.pending_repairs bn 0 < q ∨
       p.blueprints.find? (fun bp => bp.name = bn) = none ∨
       (∀ bp, p.blueprints.find? (fun bp2 => bp2.name = bn) = some bp →
         p.money < bp.get_repair_cost * q)) →
      p.repair_devices bn q = (false, p)) ∧
    (∀ (p : Player) (bn : String) (q : Int),
      (p.repair_devices bn q).1 = true → q ≤ dictGetD p.pending_repairs bn 0) := by
  constructor
  · intro p bn q h
    unfold Player.repair_devices
    split_ifs with h1 h2 h3
    · rfl
    · rfl
    · rfl
    · rcases hfind : p.blueprints.find? (fun bp => bp.name = bn) with _ | bp
      · rw [hfind]
      · rw [hfind]
        rcases h with hq | hpend | hnone | hfunds
        · omega
        · omega
        · rw [hfind] at hnone; exact absurd hnone (by simp)
        · have hlt := hfunds bp hfind
          simp only [if_pos hlt]
  · intro p bn q h
    unfold Player.repair_devices at h
    split_ifs at h with h1 h2 h3
    omega

/-- A player with five pending repairs of `bpPlain` and ample funds. -/
def pRepair : Player :=
  { name := "A", money := 10000, blueprints := [bpPlain],
    manufactured_phones := [], sold_devices := [],
    pending_repairs := [("Plain", 5)], brand_reputation := 50,
    price_history := [], rejected_repairs_this_month := 0 }

/-- C9, witness: a non-positive quantity fails and leaves the player
unchanged, and a concrete successful repair respects the pending bound. -/
theorem C9_repair_devices_safe_witness :
    pRepair.repair_devices "Plain" 0 = (false, pRepair) ∧
    ((pRepair.repair_devices "Plain" 3).1 = true → 3 ≤ dictGetD pRepair.pending_repairs "Plain" 0) :=
  ⟨C9_repair_devices_safe.1 pRepair "Plain" 0 (Or.inl (by decide)),
   C9_repair_devices_safe.2 pRepair "Plain" 3⟩

/-! ## The customer market and the monthly allocation pass -/

/-- `CustomerMarket`: the cohort population, the month counter and the sales
ledger. -/
structure CustomerMarket where
  customer_groups : List CustomerGroup
  current_month : Int
  sales_history : List (Int × List (String × Int))
  is_initialized : Bool
deriving DecidableEq, Repr

/-- A fresh, un-initialized market (`CustomerMarket.__init__`). -/
def emptyMarket : CustomerMarket :=
  { customer_groups := [], current_month := 0, sales_history := [], is_initialized := false }

/-- `initialize_market`: distribute `MARKET_SIZE` people over the five budget
tiers by the fixed percentages (each tier count is `int(MARKET_SIZE * pct)`;
for these concrete constants the IEEE-double product rounds to the exact
integer, so the rational floor below coincides with the Python value), then
evenly over the ten customer types with the remainder going to the first
types; a second invocation is a no-op. -/
def CustomerMarket.initialize_market (m : CustomerMarket) : CustomerMarket :=
  if m.is_initialized then m
  else
    let num_types : Int := customer_types_list.length
    let new_groups := CUSTOMER_TIER_DISTRIBUTION.flatMap (fun td =>
      let tier_count : Int := ⌊(MARKET_SIZE : ℚ) * td.2⌋
      let customers_per_type := tier_count.fdiv num_types
      let remainder := tier_count.fmod num_types
      customer_types_list.enum.filterMap (fun ic =>
        let count := customers_per_type + (if (ic.1 : Int) < remainder then 1 else 0)
        if count > 0 then
          some { tier := td.1, customer_type := ic.2, count := count }
        else none))
    { m with customer_groups := m.customer_groups ++ new_groups, is_initialized := true }

/-- `player_blueprints[pname].get(bpname)`: the blueprint lookup table built
at the start of the allocation pass (later same-name entries overwrite
earlier ones, as in a dict). -/
def playerBlueprintsLookup (players : List Player) (pname bpname : String) :
    Option PhoneBlueprint :=
  (players.reverse.find? (fun p => p.name = pname)).bind
    (fun p => p.blueprints.reverse.find? (fun bp => bp.name = bpname))

/-- One player's contribution to `available_phones`/`inventory_tracker`: a
(key, quantity, blueprint) triple per manufactured product with positive
stock whose blueprint is found by `lk`. -/
def inventoryBlock (lk : String → Option PhoneBlueprint) (nm : String)
    (l : List (String × Int)) : List ((String × String) × Int × PhoneBlueprint) :=
  l.filterMap (fun e =>
    if e.2 > 0 then (lk e.1).map (fun bp => ((nm, e.1), e.2, bp)) else none)

/-- The (key, quantity, blueprint) triples behind `available_phones` and
`inventory_tracker`: one per manufactured product with positive stock whose
blueprint exists. -/
def availableEntries (players : List Player) : List ((String × String) × Int × PhoneBlueprint) :=
  players.flatMap (fun player =>
    inventoryBlock (playerBlueprintsLookup players player.name) player.name
      player.manufactured_phones)

/-- The brand reputation of the named player (reputations are not modified
during the group loop, so the pass reads them from the input snapshot). -/
def reputationOf (players : List Player) (pname : String) : ℚ :=
  ((players.find? (fun p => p.name = pname)).map (fun p => p.brand_reputation)).getD 0

/-- The per-pass static context of `simulate_purchases`. -/
structure SimCtx where
  current_month : Int
  global_tech_level : Int
  bpLookup : String → String → Option PhoneBlueprint
  available_phones : List (String × PhoneBlueprint)
  repOf : String → ℚ

/-- Result of the per-group demand determination (source lines 1458-1505):
how many members should buy, the (possibly camera-marker-updated) group, and
the retention-reputation delta recorded for the owning company. -/
structure DemandResult where
  should_buy : Int
  group : CustomerGroup
  retention : Option (String × Int)

/-- The mutable state threaded through the group loop of the pass. -/
structure SimState where
  players : List Player
  groups : List CustomerGroup
  tracker : List ((String × String) × Int)
  sales_by_player : List (String × Int)
  sales_by_phone : List ((String × String) × Int)
  retention_changes : List (String × Int)
  splits : List (Nat × Int × String × String)

/-- Demand determination for one cohort: buy if unowned; buy if the owned
phone's lifecycle expired (recording the retention delta: −count when owned
at most 12 months, +count when at least 24); for Camera Enthusiasts, check
every `CAMERA_CHECK_INTERVAL` months for a strictly better camera tier in
their own market tier (recording −count when owned at most 12 months), and
update the last-check marker whether or not a switch is triggered. -/
def determineDemand (ctx : SimCtx) (g : CustomerGroup) : DemandResult :=
  match g.owned_phone_company with
  | none => ⟨g.count, g, none⟩
  | some comp =>
    let months_owned := ctx.current_month - g.purchase_month.getD 0
    match ctx.bpLookup comp (g.owned_phone_blueprint.getD "") with
    | none => ⟨0, g, none⟩
    | some owned_blueprint =>
      let lifecycle := calculate_phone_lifecycle owned_blueprint g.customer_type
      if months_owned ≥ lifecycle then
        ⟨g.count, g,
         some (comp, if months_owned ≤ 12 then -g.count
                     else if months_owned ≥ 24 then g.count else 0)⟩
      else if g.customer_type = "Camera Enthusiast" then
        let last_check :=
          match g.last_camera_check_month with
          | some v => if v = 0 then g.purchase_month.getD 0 else v
          | none => g.purchase_month.getD 0
        if ctx.current_month - last_check ≥ CAMERA_CHECK_INTERVAL then
          let better := ctx.available_phones.any (fun e =>
            decide (e.2.get_tier_name ctx.global_tech_level = g.tier ∧
                    e.2.camera_tier > owned_blueprint.camera_tier))
          let g2 := { g with last_camera_check_month := some ctx.current_month }
          if better then
            ⟨g.count, g2, if months_owned ≤ 12 then some (comp, -g.count) else none⟩
          else ⟨0, g2, none⟩
        else ⟨0, g, none⟩
      else ⟨0, g, none⟩

/-- Record a retention delta into the `retention_changes` dict. -/
def applyRetentionDelta (rc : List (String × Int)) : Option (String × Int) → List (String × Int)
  | none => rc
  | some e => dictAdd rc e.1 e.2

/-- One comparison step of the best-product selection: score the candidate
(preference score times the brand multiplier `1 + reputation/100 * 0.2`) and
keep it only when it strictly beats the running best. -/
def pickBestStep (ctx : SimCtx) (g : CustomerGroup)
    (acc : Option (String × PhoneBlueprint × ℚ)) (e : String × PhoneBlueprint) :
    Option (String × PhoneBlueprint × ℚ) :=
  let score := g.evaluate_phone e.2 * (1 + ctx.repOf e.1 / 100 * (1/5))
  match acc with
  | none => some (e.1, e.2, score)
  | some prev => if score > prev.2.2 then some (e.1, e.2, score) else acc

/-- Select the single highest-scoring product among the tier-matching ones;
first encountered wins ties (source uses a strict `>` against the running
best). -/
def pickBest (ctx : SimCtx) (g : CustomerGroup) (matching : List (String × PhoneBlueprint)) :
    Option (String × PhoneBlueprint) :=
  (matching.foldl (pickBestStep ctx g) none).map (fun b => (b.1, b.2.1))

/-- The three per-sale mutations of the winning manufacturer: decrement the
product's inventory, credit the revenue, increment the cumulative sold-units
counter. -/
def sellToPlayer (bpname : String) (price : Int) (qty : Int) (pl : Player) : Player :=
  { pl with manufactured_phones := dictAdd pl.manufactured_phones bpname (-qty),
            money := pl.money + price * qty,
            sold_devices := dictAdd pl.sold_devices bpname qty }

/-- The loop body of the allocation pass for the cohort at index `i`:
determine demand, find tier-matching phones, pick the best, and if its
tracked inventory is positive, sell `min(demand, inventory)` units — either
overwriting the cohort's ownership in place (full coverage) or queueing a
split. -/
def processGroup (ctx : SimCtx) (st : SimState) (i : Nat) : SimState :=
  match st.groups.get? i with
  | none => st
  | some g =>
    let d := determineDemand ctx g
    let st1 : SimState :=
      { st with groups := st.groups.set i d.group,
                retention_changes := applyRetentionDelta st.retention_changes d.retention }
    if d.should_buy = 0 then st1
    else
      let matching := ctx.available_phones.filter
        (fun e => decide (e.2.get_tier_name ctx.global_tech_level = g.tier))
      if matching.isEmpty then st1
      else
        match pickBest ctx g matching with
        | none => st1
        | some best =>
          let inventory_key := (best.1, best.2.name)
          let available_qty := dictGetD st1.tracker inventory_key 0
          if available_qty > 0 then
            let actual_buy_count := min d.should_buy available_qty
            let st2 : SimState :=
              { st1 with
                players := st1.players.map (fun pl =>
                  if pl.name = best.1 then
                    sellToPlayer best.2.name best.2.sell_price actual_buy_count pl
                  else pl),
                sales_by_player := dictAdd st1.sales_by_player best.1 actual_buy_count,
                sales_by_phone := dictAdd st1.sales_by_phone inventory_key actual_buy_count,
                tracker := dictAdd st1.tracker inventory_key (-actual_buy_count) }
            if actual_buy_count < g.count then
              { st2 with splits := st2.splits ++ [(i, actual_buy_count, best.1, best.2.name)] }
            else
              let owner_group : CustomerGroup :=
                { d.group with owned_phone_company := some best.1,
                               owned_phone_blueprint := some best.2.name,
                               purchase_month := some ctx.current_month,
                               last_camera_check_month := some ctx.current_month }
              { st2 with groups := st2.groups.set i owner_group }
          else st1

/-- Apply a retention-reputation change to a player (source lines
1596-1600): when non-zero, add it to the reputation and clamp to [0, 100]. -/
def applyRetentionToPlayer (player : Player) (change : Int) : Player :=
  if change ≠ 0 then
    { player with
        brand_reputation := max 0 (min 100 (player.brand_reputation + (change : ℚ))) }
  else player

/-- The new cohort created for the buyers of a split. -/
def mkBuyerGroup (month : Int) (g : CustomerGroup) (buy_count : Int)
    (company bpname : String) : CustomerGroup :=
  { tier := g.tier, customer_type := g.customer_type, count := buy_count,
    owned_phone_company := some company, owned_phone_blueprint := some bpname,
    purchase_month := some month, last_camera_check_month := some month }

/-- Apply the queued splits (the source iterates them in reverse): shrink the
original cohort by the bought amount and append the buyer cohort. -/
def applySplits (month : Int) :
    List CustomerGroup → List (Nat × Int × String × String) → List CustomerGroup
  | groups, [] => groups
  | groups, s :: rest =>
    match groups.get? s.1 with
    | none => applySplits month groups rest
    | some g =>
      applySplits month
        ((groups.set s.1 { g with count := g.count - s.2.1 }) ++
          [mkBuyerGroup month g s.2.1 s.2.2.1 s.2.2.2])
        rest

/-- `simulate_purchases`: the monthly matching-and-allocation pass.  Returns
the updated market and the updated player list. -/
def CustomerMarket.simulate_purchases (m : CustomerMarket) (players : List Player)
    (global_tech_level : Int) : CustomerMarket × List Player :=
  let entries := availableEntries players
  if entries.isEmpty then (m, players)
  else
    let ctx : SimCtx :=
      { current_month := m.current_month, global_tech_level := global_tech_level,
        bpLookup := playerBlueprintsLookup players,
        available_phones := entries.map (fun e => (e.1.1, e.2.2)),
        repOf := reputationOf players }
    let st0 : SimState :=
      { players := players, groups := m.customer_groups,
        tracker := entries.map (fun e => (e.1, e.2.1)),
        sales_by_player := players.map (fun p => (p.name, 0)),
        sales_by_phone := [],
        retention_changes := players.map (fun p => (p.name, 0)),
        splits := [] }
    let stF := (List.range m.customer_groups.length).foldl (processGroup ctx) st0
    let groups2 := applySplits m.current_month stF.groups stF.splits.reverse
    let players2 := stF.players.map (fun player =>
      applyRetentionToPlayer player (dictGetD stF.retention_changes player.name 0))
    ({ m with customer_groups := groups2,
              sales_history := dictSet m.sales_history m.current_month stF.sales_by_player },
     players2)

/-! ## Population-count preservation (C5) -/

/-- Total population across a list of cohorts. -/
def totalCount (groups : List CustomerGroup) : Int := (groups.map (fun g => g.count)).sum

theorem totalCount_nil : totalCount [] = 0 := rfl

theorem totalCount_cons (g : CustomerGroup) (l : List CustomerGroup) :
    totalCount (g :: l) = g.count + totalCount l := by simp [totalCount]

theorem totalCount_append (l1 l2 : List CustomerGroup) :
    totalCount (l1 ++ l2) = totalCount l1 + totalCount l2 := by simp [totalCount]

theorem totalCount_set (l : List CustomerGroup) (i : Nat) (g g' : CustomerGroup)
    (h : l.get? i = some g) :
    totalCount (l.set i g') = totalCount l - g.count + g'.count := by
  induction l generalizing i with
  | nil => simp at h
  | cons x xs ih =>
    cases i with
    | zero =>
      simp only [List.get?] at h
      cases h
      simp [totalCount_cons, List.set]
      ring
    | succ j =>
      simp only [List.get?] at h
      simp only [List.set, totalCount_cons, ih j h]
      ring

/-- Demand determination never changes the cohort's population count. -/
theorem determineDemand_count (ctx : SimCtx) (g : CustomerGroup) :
    (determineDemand ctx g).group.count = g.count := by
  unfold determineDemand
  split
  · rfl
  · split
    · rfl
    · dsimp only
      split_ifs <;> rfl

theorem get?_set_same {α : Type} (l : List α) (i : Nat) (a : α) (h : i < l.length) :
    (l.set i a).get? i = some a := by
  induction l generalizing i with
  | nil => simp at h
  | cons x xs ih =>
    cases i with
    | zero => rfl
    | succ j => simpa using ih j (by simpa using h)

/-- A fold preserves any invariant preserved by each step on list members. -/
theorem foldl_preserves {α β : Type} {P : β → Prop} {f : β → α → β} {l : List α} {b : β}
    (hb : P b) (hf : ∀ b a, a ∈ l → P b → P (f b a)) : P (l.foldl f b) := by
  induction l generalizing b with
  | nil => exact hb
  | cons x xs ih =>
    exact ih (hf b x (by simp) hb) (fun b a ha hP => hf b a (by simp [ha]) hP)

theorem applySplits_totalCount (month : Int) (splits : List (Nat × Int × String × String))
    (groups : List CustomerGroup) (h : ∀ e ∈ splits, e.1 < groups.length) :
    totalCount (applySplits month groups splits) = totalCount groups := by
  induction splits generalizing groups with
  | nil => rfl
  | cons s rest ih =>
    have hs : s.1 < groups.length := h s (by simp)
    rcases hget : groups.get? s.1 with _ | g
    · rw [List.get?_eq_none] at hget; omega
    · rw [applySplits]
      simp only [hget]
      rw [ih]
      · rw [totalCount_append, totalCount_set _ _ _ _ hget]
        simp [mkBuyerGroup, totalCount]
      · intro e he
        have := h e (by simp [he])
        simp only [List.length_append, List.length_set, List.length_cons]
        omega

/-- The invariant carried through the group loop for C5: total population
unchanged, groups-list length fixed, and every queued split indexes into the
original range. -/
def C5Inv (n : Nat) (base : Int) (st : SimState) : Prop :=
  totalCount st.groups = base ∧ st.groups.length = n ∧ ∀ e ∈ st.splits, e.1 < n

theorem processGroup_C5Inv (ctx : SimCtx) (n : Nat) (base : Int) (st : SimState) (i : Nat)
    (hi : i < n) (h : C5Inv n base st) : C5Inv n base (processGroup ctx st i) := by
  obtain ⟨h1, h2, h3⟩ := h
  unfold processGroup
  rcases hget : st.groups.get? i with _ | g
  · exact ⟨h1, h2, h3⟩
  · have hset : totalCount (st.groups.set i (determineDemand ctx g).group) = base := by
      rw [totalCount_set _ _ _ _ hget, determineDemand_count]; omega
    have hilt : i < st.groups.length := (List.get?_eq_some.mp hget).1
    have hget1 : (st.groups.set i (determineDemand ctx g).group).get? i
        = some (determineDemand ctx g).group :=
      get?_set_same _ _ _ hilt
    have hlen1 : (st.groups.set i (determineDemand ctx g).group).length = n := by
      simp [h2]
    dsimp only
    split
    · exact ⟨hset, hlen1, h3⟩
    · split
      · exact ⟨hset, hlen1, h3⟩
      · split
        · exact ⟨hset, hlen1, h3⟩
        · split
          · split
            · refine ⟨hset, hlen1, ?_⟩
              intro e he
              simp only [List.mem_append, List.mem_singleton] at he
              rcases he with he | he
              · exact h3 e he
              · subst he; exact hi
            · refine ⟨?_, by simp [h2], h3⟩
              rw [totalCount_set _ _ _ _ hget1]
              simpa using hset
          · exact ⟨hset, hlen1, h3⟩

/-- The tier counts of `initialize_market` with the rational tier counts
already evaluated (3000/6000/8000/2000/1000 for the five tiers). -/
def initGroups : List CustomerGroup :=
  ([("Entry Level", (3000 : Int)), ("Budget", 6000), ("Midrange", 8000),
    ("High End", 2000), ("Flagship", 1000)]).flatMap (fun td =>
    customer_types_list.enum.filterMap (fun ic =>
      let count := td.2.fdiv 10 + (if (ic.1 : Int) < td.2.fmod 10 then 1 else 0)
      if count > 0 then
        some { tier := td.1, customer_type := ic.2, count := count }
      else none))

theorem initialize_market_eval (m : CustomerMarket) (hm : m.is_initialized = false) :
    m.initialize_market
      = { m with customer_groups := m.customer_groups ++ initGroups,
                 is_initialized := true } := by
  unfold CustomerMarket.initialize_market
  rw [hm]
  simp only [Bool.false_eq_true, if_false]
  have hg : CUSTOMER_TIER_DISTRIBUTION.flatMap (fun td =>
      let tier_count : Int := ⌊(MARKET_SIZE : ℚ) * td.2⌋
      let customers_per_type := tier_count.fdiv (customer_types_list.length : Int)
      let remainder := tier_count.fmod (customer_types_list.length : Int)
      customer_types_list.enum.filterMap (fun ic =>
        let count := customers_per_type + (if (ic.1 : Int) < remainder then 1 else 0)
        if count > 0 then
          some { tier := td.1, customer_type := ic.2, count := count }
        else none)) = initGroups := by
    have e1 : (⌊(MARKET_SIZE : ℚ) * (15/100)⌋ : Int) = 3000 := by norm_num [MARKET_SIZE]
    have e2 : (⌊(MARKET_SIZE : ℚ) * (30/100)⌋ : Int) = 6000 := by norm_num [MARKET_SIZE]
    have e3 : (⌊(MARKET_SIZE : ℚ) * (40/100)⌋ : Int) = 8000 := by norm_num [MARKET_SIZE]
    have e4 : (⌊(MARKET_SIZE : ℚ) * (10/100)⌋ : Int) = 2000 := by norm_num [MARKET_SIZE]
    have e5 : (⌊(MARKET_SIZE : ℚ) * (5/100)⌋ : Int) = 1000 := by norm_num [MARKET_SIZE]
    simp only [CUSTOMER_TIER_DISTRIBUTION, initGroups, List.flatMap_cons, List.flatMap_nil,
      e1, e2, e3, e4, e5]
    decide
  rw [hg]

/-- Sum-preservation of one full allocation pass, stated over an arbitrary
context and an initial loop state with an empty split queue. -/
theorem pass_totalCount (ctx : SimCtx) (month : Int) (st0 : SimState)
    (h0 : st0.splits = []) :
    totalCount (applySplits month
      ((List.range st0.groups.length).foldl (processGroup ctx) st0).groups
      ((List.range st0.groups.length).foldl (processGroup ctx) st0).splits.reverse)
      = totalCount st0.groups := by
  have hInv : C5Inv st0.groups.length (totalCount st0.groups)
      ((List.range st0.groups.length).foldl (processGroup ctx) st0) := by
    apply foldl_preserves
    · exact ⟨rfl, rfl, by simp [h0]⟩
    · intro b a ha hP
      exact processGroup_C5Inv ctx _ _ b a (List.mem_range.mp ha) hP
  obtain ⟨hA, hB, hC⟩ := hInv
  rw [applySplits_totalCount]
  · exact hA
  · intro e he
    rw [hB]
    exact hC e (List.mem_reverse.mp he)

/-- C5.  Initialization creates cohorts whose counts sum to exactly the
market size 20,000 with no cohort owning a phone, and every allocation pass
preserves the total population count (splits only transfer count). -/
theorem C5_population_conserved :
    (totalCount (emptyMarket.initialize_market).customer_groups = MARKET_SIZE ∧
     ∀ g ∈ (emptyMarket.initialize_market).customer_groups, g.owned_phone_company = none) ∧
    (∀ (m : CustomerMarket) (players : List Player) (gtl : Int),
      totalCount (m.simulate_purchases players gtl).1.customer_groups
        = totalCount m.customer_groups) := by
  constructor
  · rw [initialize_market_eval emptyMarket rfl]
    constructor
    · decide
    · decide
  · intro m players gtl
    unfold CustomerMarket.simulate_purchases
    dsimp only
    split_ifs with hemp
    · rfl
    · exact pass_totalCount _ m.current_month _ rfl

/-! ## No-fallback allocation (C10) -/

/-- C10.  When the single highest-scoring tier-matching product chosen for an
in-market cohort has zero remaining tracked inventory, the cohort makes no
purchase at all in that pass: the loop step leaves the players, the
inventory tracker, both sales ledgers and the split queue unchanged (only
the demand-side bookkeeping — the possibly updated camera-check marker and
the retention record — happens), with no fallback to any other product. -/
theorem C10_no_fallback (ctx : SimCtx) (st : SimState) (i : Nat) (g : CustomerGroup)
    (best : String × PhoneBlueprint)
    (hget : st.groups.get? i = some g)
    (hbest : pickBest ctx g (ctx.available_phones.filter
      (fun e => decide (e.2.get_tier_name ctx.global_tech_level = g.tier))) = some best)
    (hzero : dictGetD st.tracker (best.1, best.2.name) 0 = 0) :
    processGroup ctx st i =
      { st with groups := st.groups.set i (determineDemand ctx g).group,
                retention_changes :=
                  applyRetentionDelta st.retention_changes (determineDemand ctx g).retention } := by
  unfold processGroup
  simp only [hget]
  split
  · rfl
  · split
    · rfl
    · simp only [hbest]
      rw [hzero]
      simp

/-- The phone sold out in the C10 witness: the first Entry-Level product. -/
def bpP0w : PhoneBlueprint :=
  { name := "P0", ram_tier := 1, soc_tier := 1, screen_tier := 1, battery_tier := 1,
    camera_tier := 1, casing_tier := 1, storage_tier := 1, fingerprint_tier := 0,
    sell_price := 100 }

/-- The still-stocked phone in the C10 witness: a second Entry-Level product. -/
def bpP1w : PhoneBlueprint := { bpP0w with name := "P1", sell_price := 120 }

/-- The in-market cohort of the C10 witness. -/
def gC10 : CustomerGroup :=
  { tier := "Entry Level", customer_type := "All-Rounder", count := 10 }

/-- The C10 witness context: two tier-matching products, "P0" listed first. -/
def ctxC10 : SimCtx :=
  { current_month := 5, global_tech_level := 1, bpLookup := fun _ _ => none,
    available_phones := [("A", bpP0w), ("A", bpP1w)], repOf := fun _ => 50 }

/-- The C10 witness loop state: "P0" has zero tracked inventory (sold out),
while the tier-matching "P1" still has four units. -/
def stC10 : SimState :=
  { players := [], groups := [gC10], tracker := [(("A", "P1"), 4)],
    sales_by_player := [], sales_by_phone := [], retention_changes := [], splits := [] }

/-- C10, witness: in a concrete state where the best-scoring product "P0" is
sold out while the tier-matching "P1" still has inventory, the loop step
makes no purchase (and does not fall back to "P1"). -/
theorem C10_no_fallback_witness :
    processGroup ctxC10 stC10 0 =
      { stC10 with groups := stC10.groups.set 0 (determineDemand ctxC10 gC10).group,
                   retention_changes :=
                     applyRetentionDelta stC10.retention_changes
                       (determineDemand ctxC10 gC10).retention } ∧
    dictGetD stC10.tracker ("A", "P1") 0 = 4 := by
  refine ⟨C10_no_fallback ctxC10 stC10 0 gC10 ("A", bpP0w) rfl ?_ (by decide), by decide⟩
  have hcmp : ¬ (gC10.evaluate_phone bpP1w * (1 + ctxC10.repOf "A" / 100 * (1/5)) >
      gC10.evaluate_phone bpP0w * (1 + ctxC10.repOf "A" / 100 * (1/5))) := by
    rw [show gC10.evaluate_phone bpP1w = gC10.evaluate_phone bpP0w from rfl]
    exact lt_irrefl _
  have hfilter : ctxC10.available_phones.filter
      (fun e => decide (e.2.get_tier_name ctxC10.global_tech_level = gC10.tier))
      = [("A", bpP0w), ("A", bpP1w)] := by decide
  rw [hfilter]
  unfold pickBest pickBestStep
  simp only [List.foldl_cons, List.foldl_nil]
  rw [if_neg hcmp]
  rfl

/-! ## Retention-adjustment behaviour (C2) and the duplicate-key bug (C1) -/

/-- An all-tier-1, all-Low blueprint whose computed lifecycle is the 6-month
minimum. -/
def bpTerrible : PhoneBlueprint :=
  { name := "P0", ram_tier := 1, soc_tier := 1, screen_tier := 1, battery_tier := 1,
    camera_tier := 1, casing_tier := 1, storage_tier := 1, fingerprint_tier := 0,
    sell_price := 50, ram_quality := "Low", soc_quality := "Low", screen_quality := "Low",
    battery_quality := "Low", camera_quality := "Low", casing_quality := "Low",
    storage_quality := "Low" }

/-- An all-tier-3 Midrange blueprint (market tier "Midrange" at tech level 1). -/
def bpMid : PhoneBlueprint :=
  { name := "PMid", ram_tier := 3, soc_tier := 3, screen_tier := 3, battery_tier := 3,
    camera_tier := 3, casing_tier := 3, storage_tier := 3, fingerprint_tier := 0,
    sell_price := 500 }

/-- The manufacturer of the C2 counterexample: owns the expired "P0" design
and sells only the Midrange "PMid". -/
def pC2 : Player :=
  { name := "A", money := 1000, blueprints := [bpTerrible, bpMid],
    manufactured_phones := [("PMid", 50)], sold_devices := [], pending_repairs := [],
    brand_reputation := 50, price_history := [], rejected_repairs_this_month := 0 }

/-- The C2 cohort: owns "A"/"P0" since month 1 (12 months at month 13, at the
moment its 6-month lifecycle has long expired). -/
def gC2 : CustomerGroup :=
  { tier := "Entry Level", customer_type := "All-Rounder", count := 5,
    owned_phone_company := some "A", owned_phone_blueprint := some "P0",
    purchase_month := some 1 }

/-- The C2 market at month 13. -/
def mC2 : CustomerMarket :=
  { customer_groups := [gC2], current_month := 13, sales_history := [],
    is_initialized := true }

/-- C2, counterexample.  The claim says the retention adjustment happens only
when the cohort actually replaces the product, and only when it is replaced
before 12 months.  Here the cohort's phone expired after exactly 12 months
and no Entry-Level product is on sale, so nothing is bought — the cohort's
record, the manufacturer's inventory and the sales ledger are unchanged —
yet the manufacturer's reputation still drops from 50 to 45. -/
theorem C2_counterexample :
    ((mC2.simulate_purchases [pC2] 1).1.customer_groups = mC2.customer_groups) ∧
    ((mC2.simulate_purchases [pC2] 1).2.map (fun p => p.manufactured_phones)
        = [pC2.manufactured_phones]) ∧
    ((mC2.simulate_purchases [pC2] 1).1.sales_history = [(13, [("A", 0)])]) ∧
    ((mC2.simulate_purchases [pC2] 1).2.map (fun p => p.brand_reputation)
        = [(applyRetentionToPlayer pC2 (-5)).brand_reputation]) ∧
    (applyRetentionToPlayer pC2 (-5)).brand_reputation = 45 := by
  refine ⟨by decide, by decide, by decide, by rfl, ?_⟩
  unfold applyRetentionToPlayer pC2
  norm_num [min_def, max_def]

/-- C2, amended.  The retention-based reputation adjustment is recorded when
the cohort becomes due for replacement — months owned at least the computed
lifecycle — whether or not a purchase then happens: −count when the phone was
owned at most 12 months, +count when at least 24 months, 0 otherwise; a
camera-driven early switch trigger likewise records −count when the phone
was owned at most 12 months (and nothing otherwise); and the recorded change
is applied to the manufacturer's reputation clamped to [0, 100] when
non-zero. -/
theorem C2_retention_on_eligibility :
    (∀ (ctx : SimCtx) (g : CustomerGroup) (comp : String) (obp : PhoneBlueprint),
      g.owned_phone_company = some comp →
      ctx.bpLookup comp (g.owned_phone_blueprint.getD "") = some obp →
      ctx.current_month - g.purchase_month.getD 0
        ≥ calculate_phone_lifecycle obp g.customer_type →
      (determineDemand ctx g).retention
        = some (comp,
            if ctx.current_month - g.purchase_month.getD 0 ≤ 12 then -g.count
            else if ctx.current_month - g.purchase_month.getD 0 ≥ 24 then g.count
            else 0)) ∧
    (∀ (ctx : SimCtx) (g : CustomerGroup) (comp : String) (obp : PhoneBlueprint),
      g.owned_phone_company = some comp →
      ctx.bpLookup comp (g.owned_phone_blueprint.getD "") = some obp →
      ¬ (ctx.current_month - g.purchase_month.getD 0
          ≥ calculate_phone_lifecycle obp g.customer_type) →
      g.customer_type = "Camera Enthusiast" →
      ctx.current_month -
        (match g.last_camera_check_month with
          | some v => if v = 0 then g.purchase_month.getD 0 else v
          | none => g.purchase_month.getD 0) ≥ CAMERA_CHECK_INTERVAL →
      ctx.available_phones.any (fun e =>
        decide (e.2.get_tier_name ctx.global_tech_level = g.tier ∧
                e.2.camera_tier > obp.camera_tier)) = true →
      (determineDemand ctx g).retention
        = if ctx.current_month - g.purchase_month.getD 0 ≤ 12 then some (comp, -g.count)
          else none) ∧
    (∀ (player : Player) (change : Int),
      (applyRetentionToPlayer player change).brand_reputation
        = if change ≠ 0 then max 0 (min 100 (player.brand_reputation + (change : ℚ)))
          else player.brand_reputation) := by
  refine ⟨?_, ?_, ?_⟩
  · intro ctx g comp obp hcomp hobp hexp
    unfold determineDemand
    simp only [hcomp, hobp]
    rw [if_pos hexp]
  · intro ctx g comp obp hcomp hobp hml hct hint hbet
    unfold determineDemand
    simp only [hcomp, hobp]
    rw [if_neg hml, if_pos hct, if_pos hint, hbet, if_pos rfl]
  · intro player change
    unfold applyRetentionToPlayer
    split_ifs <;> rfl

/-- The context of the C2 witness, as built by a pass over `[pC2]`. -/
def ctxC2 : SimCtx :=
  { current_month := 13, global_tech_level := 1,
    bpLookup := playerBlueprintsLookup [pC2],
    available_phones := [("A", bpMid)],
    repOf := reputationOf [pC2] }

/-- A Budget-tier phone whose only non-tier-1 component is its tier-2
camera. -/
def bpCam : PhoneBlueprint :=
  { name := "PCam", ram_tier := 1, soc_tier := 1, screen_tier := 1, battery_tier := 1,
    camera_tier := 2, casing_tier := 1, storage_tier := 1, fingerprint_tier := 0,
    sell_price := 150 }

/-- The manufacturer of the camera-switch witness. -/
def pCam : Player :=
  { name := "A", money := 1000, blueprints := [bpTerrible, bpCam],
    manufactured_phones := [("PCam", 30)], sold_devices := [], pending_repairs := [],
    brand_reputation := 50, price_history := [], rejected_repairs_this_month := 0 }

/-- A Budget camera-enthusiast cohort four months into its "P0" ownership. -/
def gCam : CustomerGroup :=
  { tier := "Budget", customer_type := "Camera Enthusiast", count := 8,
    owned_phone_company := some "A", owned_phone_blueprint := some "P0",
    purchase_month := some 1 }

/-- The context of the camera-switch witness at month 5. -/
def ctxCam : SimCtx :=
  { current_month := 5, global_tech_level := 1,
    bpLookup := playerBlueprintsLookup [pCam],
    available_phones := [("A", bpCam)],
    repOf := reputationOf [pCam] }

/-- C2, witness: the expired cohort `gC2` (12 months owned ≥ 6-month
lifecycle) records a −5 retention change for "A"; the camera-enthusiast
cohort `gCam` (4 months owned, better camera available) records a −8
retention change without waiting for its lifecycle; and applying −5 to `pC2`
yields the clamped reputation 45. -/
theorem C2_retention_on_eligibility_witness :
    (determineDemand ctxC2 gC2).retention = some ("A", -5) ∧
    (determineDemand ctxCam gCam).retention = some ("A", -8) ∧
    (applyRetentionToPlayer pC2 (-5)).brand_reputation = 45 := by
  refine ⟨?_, ?_, ?_⟩
  · have h := C2_retention_on_eligibility.1 ctxC2 gC2 "A" bpTerrible rfl (by decide) (by decide)
    rw [h]
    norm_num [gC2, ctxC2]
  · have h := C2_retention_on_eligibility.2.1 ctxCam gCam "A" bpTerrible rfl (by decide)
      (by decide) rfl (by decide) (by decide)
    rw [h]
    norm_num [gCam, ctxCam]
  · have h := C2_retention_on_eligibility.2.2 pC2 (-5)
    rw [h]
    norm_num [pC2, min_def, max_def]

/-- The manufacturer of the C1 scenario: designs "P0" and "P1", sells "P1". -/
def pC1 : Player :=
  { name := "A", money := 1000, blueprints := [bpP0w, bpP1w],
    manufactured_phones := [("P1", 100)], sold_devices := [], pending_repairs := [],
    brand_reputation := 50, price_history := [], rejected_repairs_this_month := 0 }

/-- A cohort owning "A"/"P0" since month 1: its 13-month lifecycle has just
expired at month 14. -/
def gOwnedC1 : CustomerGroup :=
  { tier := "Entry Level", customer_type := "All-Rounder", count := 5,
    owned_phone_company := some "A", owned_phone_blueprint := some "P0",
    purchase_month := some 1, last_camera_check_month := some 1 }

/-- A second cohort with the same tier and type that owns nothing yet. -/
def gFreshC1 : CustomerGroup :=
  { tier := "Entry Level", customer_type := "All-Rounder", count := 7 }

/-- The C1 market at month 14. -/
def mC1 : CustomerMarket :=
  { customer_groups := [gOwnedC1, gFreshC1], current_month := 14,
    sales_history := [], is_initialized := true }

/-- The (tier, type, manufacturer, product, purchase-month) key of a cohort. -/
def groupKey (g : CustomerGroup) :
    String × String × Option String × Option String × Option Int :=
  (g.tier, g.customer_type, g.owned_phone_company, g.owned_phone_blueprint, g.purchase_month)

/-- C1.  After the month-14 pass, both cohorts have bought "P1" from "A" in
the same month and carry the identical (tier, type, manufacturer, product,
purchase-month) key: the allocation pass performs no consolidation and leaves
two duplicate-key cohorts in the population. -/
theorem C1_duplicate_keys :
    ((mC1.simulate_purchases [pC1] 1).1.customer_groups.map groupKey
      = [("Entry Level", "All-Rounder", some "A", some "P1", some 14),
         ("Entry Level", "All-Rounder", some "A", some "P1", some 14)]) ∧
    ¬ ((mC1.simulate_purchases [pC1] 1).1.customer_groups.map groupKey).Nodup := by
  exact ⟨by decide, by decide⟩

/-! ## Inventory safety (C4): dictionary and tracker lemmas -/

theorem dictGet_dictSet_same {κ α : Type} [DecidableEq κ] (l : List (κ × α)) (k : κ) (v : α) :
    dictGet (dictSet l k v) k = some v := by
  induction l with
  | nil => simp [dictSet, dictGet, List.find?]
  | cons e rest ih =>
    unfold dictSet
    split_ifs with h
    · simp [dictGet, List.find?]
    · simpa [dictGet, List.find?, h] using ih

theorem dictGet_dictSet_ne {κ α : Type} [DecidableEq κ] (l : List (κ × α)) (k k' : κ) (v : α)
    (h : k' ≠ k) : dictGet (dictSet l k v) k' = dictGet l k' := by
  have hkk : ¬ k = k' := fun he => h he.symm
  induction l with
  | nil => simp [dictSet, dictGet, List.find?, hkk]
  | cons e rest ih =>
    unfold dictSet
    split_ifs with he
    · subst he
      simp [dictGet, List.find?, hkk]
    · by_cases hk : e.1 = k'
      · simp [dictGet, List.find?, hk]
      · simpa [dictGet, List.find?, hk] using ih

theorem dictGetD_dictAdd_same {κ : Type} [DecidableEq κ] (l : List (κ × Int)) (k : κ) (v : Int) :
    dictGetD (dictAdd l k v) k 0 = dictGetD l k 0 + v := by
  unfold dictAdd dictGetD
  rw [dictGet_dictSet_same]
  rfl

theorem dictGetD_dictAdd_ne {κ : Type} [DecidableEq κ] (l : List (κ × Int)) (k k' : κ) (v : Int)
    (h : k' ≠ k) : dictGetD (dictAdd l k v) k' 0 = dictGetD l k' 0 := by
  unfold dictAdd dictGetD
  rw [dictGet_dictSet_ne _ _ _ _ h]

theorem dictGetD_cons_same {κ : Type} [DecidableEq κ] (e : κ × Int) (rest : List (κ × Int))
    (k : κ) (h : e.1 = k) : dictGetD (e :: rest) k 0 = e.2 := by
  simp [dictGetD, dictGet, List.find?, h]

theorem dictGetD_cons_ne {κ : Type} [DecidableEq κ] (e : κ × Int) (rest : List (κ × Int))
    (k : κ) (h : ¬ e.1 = k) : dictGetD (e :: rest) k 0 = dictGetD rest k 0 := by
  simp [dictGetD, dictGet, List.find?, h]

theorem dictGet_map_entries {κ β γ : Type} [DecidableEq κ] (l : List (κ × β)) (f : β → γ)
    (k : κ) :
    dictGet (l.map (fun e => (e.1, f e.2))) k
      = (l.find? (fun e => e.1 = k)).map (fun e => f e.2) := by
  induction l with
  | nil => rfl
  | cons e rest ih =>
    by_cases h : e.1 = k
    · simp [dictGet, List.find?, h]
    · simp only [List.map_cons]
      rw [show dictGet ((e.1, f e.2) :: rest.map (fun e => (e.1, f e.2))) k
            = dictGet (rest.map (fun e => (e.1, f e.2))) k by
          simp [dictGet, List.find?, h]]
      rw [ih, List.find?_cons_of_neg]
      simpa using h

theorem inventoryBlock_key_name (lk : String → Option PhoneBlueprint) (nm : String)
    (l : List (String × Int)) : ∀ x ∈ inventoryBlock lk nm l, x.1.1 = nm := by
  intro x hx
  rcases List.mem_filterMap.mp hx with ⟨a, _, ha⟩
  split_ifs at ha
  rcases Option.map_eq_some'.mp ha with ⟨bp, _, hx'⟩
  rw [← hx']

theorem inventoryBlock_key_mem (lk : String → Option PhoneBlueprint) (nm : String)
    (l : List (String × Int)) : ∀ x ∈ inventoryBlock lk nm l, x.1.2 ∈ l.map Prod.fst := by
  intro x hx
  rcases List.mem_filterMap.mp hx with ⟨a, hal, ha⟩
  split_ifs at ha
  rcases Option.map_eq_some'.mp ha with ⟨bp, _, hx'⟩
  rw [← hx']
  exact List.mem_map_of_mem _ hal

theorem inventoryBlock_pos (lk : String → Option PhoneBlueprint) (nm : String)
    (l : List (String × Int)) : ∀ x ∈ inventoryBlock lk nm l, 0 < x.2.1 := by
  intro x hx
  rcases List.mem_filterMap.mp hx with ⟨a, _, ha⟩
  split_ifs at ha with hpos
  rcases Option.map_eq_some'.mp ha with ⟨bp, _, hx'⟩
  rw [← hx']
  exact hpos

theorem find?_append_of_right_none {α : Type} (p : α → Bool) (l1 l2 : List α)
    (h2 : l2.find? p = none) : (l1 ++ l2).find? p = l1.find? p := by
  induction l1 with
  | nil => simpa using h2
  | cons a l1 ih =>
    rw [List.cons_append, List.find?_cons, List.find?_cons]
    split
    · rfl
    · exact ih

theorem find?_append_of_left_none {α : Type} (p : α → Bool) (l1 l2 : List α)
    (h1 : l1.find? p = none) : (l1 ++ l2).find? p = l2.find? p := by
  induction l1 with
  | nil => rfl
  | cons a l1 ih =>
    have hpa : ¬ p a = true := by
      intro hpa
      rw [List.find?_cons_of_pos _ hpa] at h1
      exact Option.noConfusion h1
    rw [List.find?_cons_of_neg _ hpa] at h1
    rw [List.cons_append, List.find?_cons_of_neg _ hpa]
    exact ih h1

theorem find?_flatMap_blocks (ps : List Player)
    (F : Player → List ((String × String) × Int × PhoneBlueprint)) (pn fn : String)
    (hF : ∀ p, ∀ x ∈ F p, x.1.1 = p.name)
    (hnames : (ps.map Player.name).Nodup) :
    (ps.flatMap F).find? (fun e => e.1 = (pn, fn))
      = (ps.find? (fun p => p.name = pn)).bind
          (fun p => (F p).find? (fun e => e.1 = (pn, fn))) := by
  induction ps with
  | nil => rfl
  | cons p rest ih =>
    rw [List.flatMap_cons]
    by_cases h : p.name = pn
    · have hnone : (rest.flatMap F).find? (fun e => e.1 = (pn, fn)) = none := by
        rw [List.find?_eq_none]
        intro x hx
        rcases List.mem_flatMap.mp hx with ⟨q, hq, hxq⟩
        have hkey := hF q x hxq
        have hqn : ¬ q.name = pn := by
          intro he
          have hmem : p.name ∈ rest.map Player.name := by
            rw [h, ← he]
            exact List.mem_map_of_mem _ hq
          exact (List.nodup_cons.mp hnames).1 hmem
        simp only [decide_eq_true_eq]
        intro hx1
        exact hqn (by rw [← hkey, hx1])
      rw [find?_append_of_right_none _ _ _ hnone,
        List.find?_cons_of_pos _ (by simpa using h)]
      rfl
    · have hnoneP : (F p).find? (fun e => e.1 = (pn, fn)) = none := by
        rw [List.find?_eq_none]
        intro x hx
        have hkey := hF p x hx
        simp only [decide_eq_true_eq]
        intro hx1
        exact h (by rw [← hkey, hx1])
      rw [find?_append_of_left_none _ _ _ hnoneP,
        List.find?_cons_of_neg _ (by simpa using h)]
      exact ih (List.nodup_cons.mp hnames).2

theorem inventoryBlock_find?_value (lk : String → Option PhoneBlueprint) (nm : String)
    (l : List (String × Int)) (fn : String) (hnd : (l.map Prod.fst).Nodup) :
    ∀ x, (inventoryBlock lk nm l).find? (fun e => e.1 = (nm, fn)) = some x →
      x.2.1 = dictGetD l fn 0 := by
  induction l with
  | nil => intro x hx; simp [inventoryBlock] at hx
  | cons e rest ih =>
    intro x hx
    have tail_case : (inventoryBlock lk nm rest).find? (fun e => e.1 = (nm, fn)) = some x →
        x.2.1 = dictGetD (e :: rest) fn 0 := by
      intro hx'
      by_cases hfn : e.1 = fn
      · exfalso
        have hxmem : x ∈ inventoryBlock lk nm rest := List.mem_of_find?_eq_some hx'
        have hkmem := inventoryBlock_key_mem lk nm rest x hxmem
        have hp := List.find?_some hx'
        simp only [decide_eq_true_eq] at hp
        have h2 : fn ∈ List.map Prod.fst rest := by
          have hx12 : x.1.2 = fn := by rw [hp]
          rwa [hx12] at hkmem
        exact (List.nodup_cons.mp hnd).1 (hfn ▸ h2)
      · rw [dictGetD_cons_ne e rest fn hfn]
        exact ih (List.nodup_cons.mp hnd).2 x hx'
    by_cases hpos : e.2 > 0
    · rcases hlk : lk e.1 with _ | bp
      · have hblock : inventoryBlock lk nm (e :: rest) = inventoryBlock lk nm rest := by
          unfold inventoryBlock
          rw [List.filterMap_cons]
          simp [hpos, hlk]
        rw [hblock] at hx
        exact tail_case hx
      · have hblock : inventoryBlock lk nm (e :: rest)
            = ((nm, e.1), e.2, bp) :: inventoryBlock lk nm rest := by
          unfold inventoryBlock
          rw [List.filterMap_cons]
          simp [hpos, hlk]
        rw [hblock, List.find?_cons] at hx
        by_cases hefn : e.1 = fn
        · have hc : (decide (((nm, e.1), e.2, bp).1 = (nm, fn))) = true := by simp [hefn]
          simp only [hc] at hx
          cases hx
          rw [dictGetD_cons_same e rest fn hefn]
        · have hc : (decide (((nm, e.1), e.2, bp).1 = (nm, fn))) = false := by simp [hefn]
          simp only [hc] at hx
          rw [dictGetD_cons_ne e rest fn hefn]
          exact ih (List.nodup_cons.mp hnd).2 x hx
    · have hblock : inventoryBlock lk nm (e :: rest) = inventoryBlock lk nm rest := by
        unfold inventoryBlock
        rw [List.filterMap_cons]
        simp [hpos]
      rw [hblock] at hx
      exact tail_case hx
/-- The per-product inventory of the (first) player with the given name, 0
if no such player exists. -/
def manufOfL : List Player → String → String → Int
  | [], _, _ => 0
  | p :: rest, pn, fn =>
    if p.name = pn then dictGetD p.manufactured_phones fn 0 else manufOfL rest pn fn

theorem manufOfL_of_find?_eq_some (ps : List Player) (pn fn : String) (p : Player)
    (h : ps.find? (fun q => q.name = pn) = some p) :
    manufOfL ps pn fn = dictGetD p.manufactured_phones fn 0 := by
  induction ps with
  | nil => simp at h
  | cons q rest ih =>
    unfold manufOfL
    by_cases hq : q.name = pn
    · rw [List.find?_cons_of_pos _ (by simpa using hq)] at h
      cases h
      rw [if_pos hq]
    · rw [List.find?_cons_of_neg _ (by simpa using hq)] at h
      rw [if_neg hq]
      exact ih h

theorem manufOfL_of_find?_eq_none (ps : List Player) (pn fn : String)
    (h : ps.find? (fun q => q.name = pn) = none) : manufOfL ps pn fn = 0 := by
  induction ps with
  | nil => rfl
  | cons q rest ih =>
    unfold manufOfL
    by_cases hq : q.name = pn
    · rw [List.find?_cons_of_pos _ (by simpa using hq)] at h
      exact Option.noConfusion h
    · rw [List.find?_cons_of_neg _ (by simpa using hq)] at h
      rw [if_neg hq]
      exact ih h

theorem find?_isSome_of_name_mem (ps : List Player) (nm : String)
    (h : nm ∈ ps.map Player.name) : (ps.find? (fun q => q.name = nm)).isSome := by
  induction ps with
  | nil => simp at h
  | cons q rest ih =>
    by_cases hq : q.name = nm
    · rw [List.find?_cons_of_pos _ (by simpa using hq)]
      rfl
    · rw [List.find?_cons_of_neg _ (by simpa using hq)]
      apply ih
      rw [List.map_cons, List.mem_cons] at h
      rcases h with h | h
      · exact absurd h.symm hq
      · exact h

/-- L1: at pass start, the tracked inventory of a key is either 0 (the key is
untracked) or positive and equal to that player's manufactured count. -/
theorem trackerInit_value (players : List Player) (pn fn : String)
    (hnames : (players.map Player.name).Nodup)
    (hkeys : ∀ pl ∈ players, (pl.manufactured_phones.map Prod.fst).Nodup) :
    dictGetD ((availableEntries players).map (fun e => (e.1, e.2.1))) (pn, fn) 0 = 0 ∨
    (0 < dictGetD ((availableEntries players).map (fun e => (e.1, e.2.1))) (pn, fn) 0 ∧
     dictGetD ((availableEntries players).map (fun e => (e.1, e.2.1))) (pn, fn) 0
       = manufOfL players pn fn) := by
  unfold dictGetD
  rw [dictGet_map_entries]
  unfold availableEntries
  rw [find?_flatMap_blocks players _ pn fn
    (fun p x hx => inventoryBlock_key_name _ _ _ x hx) hnames]
  rcases hfp : players.find? (fun p => p.name = pn) with _ | p
  · left
    rw [hfp]
    rfl
  · have hpname : p.name = pn := by
      have := List.find?_some hfp
      simpa using this
    rw [hfp, Option.some_bind]
    rcases hfb : (inventoryBlock (playerBlueprintsLookup players p.name) p.name
        p.manufactured_phones).find? (fun e => e.1 = (pn, fn)) with _ | x
    · left
      rw [hfb]
      rfl
    · right
      have hpmem : p ∈ players := List.mem_of_find?_eq_some hfp
      have hfb2 := hfb
      rw [← hpname] at hfb2
      have hval := inventoryBlock_find?_value (playerBlueprintsLookup players p.name) p.name
          p.manufactured_phones fn (hkeys p hpmem) x hfb2
      have hpos := inventoryBlock_pos _ _ _ x (List.mem_of_find?_eq_some hfb)
      constructor
      · rw [hfb]
        simpa using hpos
      · rw [hfb, manufOfL_of_find?_eq_some players pn fn p hfp]
        simpa using hval

theorem determineDemand_should_buy (ctx : SimCtx) (g : CustomerGroup) :
    (determineDemand ctx g).should_buy = 0 ∨ (determineDemand ctx g).should_buy = g.count := by
  unfold determineDemand
  split
  · right; rfl
  · split
    · left; rfl
    · dsimp only
      split_ifs <;> first | exact Or.inl rfl | exact Or.inr rfl

theorem pickBestStep_cases (ctx : SimCtx) (g : CustomerGroup)
    (acc : Option (String × PhoneBlueprint × ℚ)) (e : String × PhoneBlueprint)
    (b : String × PhoneBlueprint × ℚ) (h : pickBestStep ctx g acc e = some b) :
    acc = some b ∨ (b.1 = e.1 ∧ b.2.1 = e.2) := by
  unfold pickBestStep at h
  rcases acc with _ | prev
  · cases h
    right
    exact ⟨rfl, rfl⟩
  · dsimp only at h
    split_ifs at h
    · cases h
      right
      exact ⟨rfl, rfl⟩
    · left
      exact h

theorem pickBest_foldl_mem (ctx : SimCtx) (g : CustomerGroup)
    (l : List (String × PhoneBlueprint)) :
    ∀ (acc : Option (String × PhoneBlueprint × ℚ)) (b : String × PhoneBlueprint × ℚ),
      l.foldl (pickBestStep ctx g) acc = some b → acc = some b ∨ (b.1, b.2.1) ∈ l := by
  induction l with
  | nil => intro acc b h; exact Or.inl h
  | cons x xs ih =>
    intro acc b h
    rw [List.foldl_cons] at h
    rcases ih (pickBestStep ctx g acc x) b h with h1 | h1
    · rcases pickBestStep_cases ctx g acc x b h1 with h2 | h2
      · exact Or.inl h2
      · right
        rw [show ((b.1, b.2.1) : String × PhoneBlueprint) = x by
          rw [h2.1, h2.2]]
        exact List.mem_cons_self x xs
    · exact Or.inr (List.mem_cons_of_mem x h1)

theorem pickBest_mem (ctx : SimCtx) (g : CustomerGroup)
    (l : List (String × PhoneBlueprint)) (b : String × PhoneBlueprint)
    (h : pickBest ctx g l = some b) : b ∈ l := by
  unfold pickBest at h
  rcases Option.map_eq_some'.mp h with ⟨trip, htrip, hb⟩
  rcases pickBest_foldl_mem ctx g l none trip htrip with h1 | h1
  · exact absurd h1 (by simp)
  · rw [← hb]
    exact h1

theorem manufOfL_map_keep (ps : List Player) (f : Player → Player) (pn fn : String)
    (h1 : ∀ pl, (f pl).name = pl.name)
    (h2 : ∀ pl, (f pl).manufactured_phones = pl.manufactured_phones) :
    manufOfL (ps.map f) pn fn = manufOfL ps pn fn := by
  induction ps with
  | nil => rfl
  | cons p rest ih =>
    rw [List.map_cons]
    unfold manufOfL
    rw [h1, h2]
    by_cases hp : p.name = pn
    · rw [if_pos hp, if_pos hp]
    · rw [if_neg hp, if_neg hp]
      exact ih

theorem manufOfL_map_sell (ps : List Player) (b1 fn' : String) (pr q : Int) (pn fn : String) :
    manufOfL (ps.map (fun pl => if pl.name = b1 then sellToPlayer fn' pr q pl else pl)) pn fn
      = if b1 = pn ∧ fn' = fn ∧ (ps.find? (fun p => p.name = pn)).isSome
        then manufOfL ps pn fn - q
        else manufOfL ps pn fn := by
  induction ps with
  | nil => simp [manufOfL]
  | cons p rest ih =>
    rw [List.map_cons]
    have hname : (if p.name = b1 then sellToPlayer fn' pr q p else p).name = p.name := by
      split_ifs <;> rfl
    unfold manufOfL
    rw [hname]
    by_cases hp : p.name = pn
    · rw [List.find?_cons_of_pos _ (by simpa using hp)]
      simp only [if_pos hp, Option.isSome_some, eq_self_iff_true, and_true]
      by_cases hb : p.name = b1
      · simp only [if_pos hb]
        have hman : (sellToPlayer fn' pr q p).manufactured_phones
            = dictAdd p.manufactured_phones fn' (-q) := rfl
        rw [hman]
        have hb1 : b1 = pn := by rw [← hb]; exact hp
        by_cases hfn : fn' = fn
        · subst hfn
          rw [dictGetD_dictAdd_same, if_pos ⟨hb1, rfl⟩]
          omega
        · rw [dictGetD_dictAdd_ne _ _ _ _ (fun h => hfn h.symm),
            if_neg (fun hc => hfn hc.2)]
      · rw [if_neg hb, if_neg (fun hc => hb (hp.trans hc.1.symm))]
    · rw [List.find?_cons_of_neg _ (by simpa using hp)]
      simp only [if_neg hp]
      exact ih
theorem names_map_sell (ps : List Player) (b1 fn' : String) (pr q : Int) :
    (ps.map (fun pl => if pl.name = b1 then sellToPlayer fn' pr q pl else pl)).map Player.name
      = ps.map Player.name := by
  induction ps with
  | nil => rfl
  | cons p rest ih =>
    rw [List.map_cons, List.map_cons, List.map_cons]
    congr 1
    split_ifs <;> rfl

/-- The invariant carried through the group loop for C4, for one fixed
inventory key `k`: cohort counts stay non-negative, player names are stable,
the tracked inventory of `k` stays within [0, t0], and the first `k.1`-named
player's stock of `k.2` moved in lockstep with the tracker. -/
def C4Inv (players0 : List Player) (k : String × String) (t0 manuf0 : Int)
    (st : SimState) : Prop :=
  (∀ g ∈ st.groups, 0 ≤ g.count) ∧
  st.players.map Player.name = players0.map Player.name ∧
  0 ≤ dictGetD st.tracker k 0 ∧
  dictGetD st.tracker k 0 ≤ t0 ∧
  manufOfL st.players k.1 k.2 = manuf0 - (t0 - dictGetD st.tracker k 0)

theorem processGroup_C4Inv (ctx : SimCtx) (players0 : List Player) (k : String × String)
    (t0 manuf0 : Int) (st : SimState) (i : Nat)
    (hav : ∀ e ∈ ctx.available_phones, e.1 ∈ players0.map Player.name)
    (h : C4Inv players0 k t0 manuf0 st) : C4Inv players0 k t0 manuf0 (processGroup ctx st i) := by
  obtain ⟨hg, hn, h0, h1, h2⟩ := h
  unfold processGroup
  rcases hget : st.groups.get? i with _ | g
  · exact ⟨hg, hn, h0, h1, h2⟩
  · have hgcount : 0 ≤ g.count := hg g (List.get?_mem hget)
    have hgroups1 : ∀ g' ∈ st.groups.set i (determineDemand ctx g).group, 0 ≤ g'.count := by
      intro g' hg'
      rcases List.mem_or_eq_of_mem_set hg' with h' | h'
      · exact hg g' h'
      · rw [h', determineDemand_count]
        exact hgcount
    dsimp only
    split
    · exact ⟨hgroups1, hn, h0, h1, h2⟩
    · split
      · exact ⟨hgroups1, hn, h0, h1, h2⟩
      · split
        · exact ⟨hgroups1, hn, h0, h1, h2⟩
        · rename_i hsb hmat xopt best hbest
          split
          · rename_i hqty
            have hsbc : (determineDemand ctx g).should_buy = g.count := by
              rcases determineDemand_should_buy ctx g with h' | h'
              · exact absurd h' hsb
              · exact h'
            have hbmem : best ∈ ctx.available_phones :=
              (List.mem_filter.mp (pickBest_mem ctx g _ best hbest)).1
            have hb1names : best.1 ∈ players0.map Player.name := hav _ hbmem
            have habc0 : 0 ≤ min (determineDemand ctx g).should_buy
                (dictGetD st.tracker (best.1, best.2.name) 0) :=
              le_min (by rw [hsbc]; exact hgcount) (le_of_lt hqty)
            have hnames2 := names_map_sell st.players best.1 best.2.name best.2.sell_price
              (min (determineDemand ctx g).should_buy
                (dictGetD st.tracker (best.1, best.2.name) 0))
            have hsell := manufOfL_map_sell st.players best.1 best.2.name best.2.sell_price
              (min (determineDemand ctx g).should_buy
                (dictGetD st.tracker (best.1, best.2.name) 0)) k.1 k.2
            by_cases hk : ((best.1, best.2.name) : String × String) = k
            · subst hk
              have hsome : (st.players.find? (fun p => p.name = best.1)).isSome :=
                find?_isSome_of_name_mem st.players best.1 (by rw [hn]; exact hb1names)
              rw [if_pos ⟨rfl, rfl, hsome⟩] at hsell
              have htr : dictGetD (dictAdd st.tracker (best.1, best.2.name)
                  (-(min (determineDemand ctx g).should_buy
                    (dictGetD st.tracker (best.1, best.2.name) 0))))
                  (best.1, best.2.name) 0
                  = dictGetD st.tracker (best.1, best.2.name) 0
                    - min (determineDemand ctx g).should_buy
                        (dictGetD st.tracker (best.1, best.2.name) 0) := by
                rw [dictGetD_dictAdd_same]
                omega
              have hminle : min (determineDemand ctx g).should_buy
                  (dictGetD st.tracker (best.1, best.2.name) 0)
                  ≤ dictGetD st.tracker (best.1, best.2.name) 0 := min_le_right _ _
              split
              · refine ⟨hgroups1, by rw [hnames2]; exact hn, ?_, ?_, ?_⟩
                · rw [htr]; omega
                · rw [htr]; omega
                · rw [hsell, htr, h2]; omega
              · refine ⟨?_, by rw [hnames2]; exact hn, ?_, ?_, ?_⟩
                · intro g' hg'
                  rcases List.mem_or_eq_of_mem_set hg' with h' | h'
                  · exact hgroups1 g' h'
                  · rw [h']
                    show 0 ≤ (determineDemand ctx g).group.count
                    rw [determineDemand_count]
                    exact hgcount
                · rw [htr]; omega
                · rw [htr]; omega
                · rw [hsell, htr, h2]; omega
            · have htr : dictGetD (dictAdd st.tracker (best.1, best.2.name)
                  (-(min (determineDemand ctx g).should_buy
                    (dictGetD st.tracker (best.1, best.2.name) 0)))) k 0
                  = dictGetD st.tracker k 0 :=
                dictGetD_dictAdd_ne _ _ _ _ (fun he => hk he.symm)
              rw [if_neg (fun hc => hk (Prod.ext hc.1 hc.2.1))] at hsell
              split
              · refine ⟨hgroups1, by rw [hnames2]; exact hn, ?_, ?_, ?_⟩
                · rw [htr]; exact h0
                · rw [htr]; exact h1
                · rw [hsell, htr]; exact h2
              · refine ⟨?_, by rw [hnames2]; exact hn, ?_, ?_, ?_⟩
                · intro g' hg'
                  rcases List.mem_or_eq_of_mem_set hg' with h' | h'
                  · exact hgroups1 g' h'
                  · rw [h']
                    show 0 ≤ (determineDemand ctx g).group.count
                    rw [determineDemand_count]
                    exact hgcount
                · rw [htr]; exact h0
                · rw [htr]; exact h1
                · rw [hsell, htr]; exact h2
          · exact ⟨hgroups1, hn, h0, h1, h2⟩

theorem availablePhones_names (players : List Player) :
    ∀ e ∈ (availableEntries players).map (fun e => (e.1.1, e.2.2)),
      e.1 ∈ players.map Player.name := by
  intro e he
  rcases List.mem_map.mp he with ⟨x, hx, hex⟩
  rcases List.mem_flatMap.mp hx with ⟨p, hp, hxp⟩
  have h1 := inventoryBlock_key_name _ _ _ x hxp
  rw [← hex]
  dsimp only
  rw [h1]
  exact List.mem_map_of_mem _ hp

/-- Inventory safety of one full allocation pass, stated over an arbitrary
context and initial loop state whose tracker is consistent with the players'
stock at the chosen key. -/
theorem pass_manufOf (ctx : SimCtx) (st0 : SimState) (pn fn : String)
    (hav : ∀ e ∈ ctx.available_phones, e.1 ∈ st0.players.map Player.name)
    (hcounts : ∀ g ∈ st0.groups, 0 ≤ g.count)
    (hinit : dictGetD st0.tracker (pn, fn) 0 = 0 ∨
      (0 < dictGetD st0.tracker (pn, fn) 0 ∧
       dictGetD st0.tracker (pn, fn) 0 = manufOfL st0.players pn fn)) :
    manufOfL ((List.range st0.groups.length).foldl (processGroup ctx) st0).players pn fn
        ≤ manufOfL st0.players pn fn ∧
    (0 ≤ manufOfL st0.players pn fn →
      0 ≤ manufOfL ((List.range st0.groups.length).foldl (processGroup ctx) st0).players pn fn) := by
  have ht0 : 0 ≤ dictGetD st0.tracker (pn, fn) 0 := by
    rcases hinit with h | h
    · omega
    · exact le_of_lt h.1
  have hInv : C4Inv st0.players (pn, fn) (dictGetD st0.tracker (pn, fn) 0)
      (manufOfL st0.players pn fn)
      ((List.range st0.groups.length).foldl (processGroup ctx) st0) := by
    apply foldl_preserves
    · exact ⟨hcounts, rfl, ht0, le_refl _, by dsimp only; omega⟩
    · intro b a _ hP
      exact processGroup_C4Inv ctx st0.players (pn, fn) _ _ b a hav hP
  obtain ⟨-, -, hA, hB, hC⟩ := hInv
  dsimp only at hC
  constructor
  · omega
  · intro h
    rcases hinit with h' | h'
    · omega
    · omega

/-- C4.  In every allocation pass, for each (manufacturer, product) pair,
the final per-product inventory count never drops below zero (given it was
non-negative at the start) and never rises: equivalently, the units sold of
a product — the start-of-pass inventory minus the end-of-pass inventory —
are non-negative and never exceed the inventory available at the start of
the pass.  The hypotheses state the well-formedness the Python dicts
guarantee: distinct player names, unique product keys per player, and
non-negative cohort counts. -/
theorem C4_inventory_safe (m : CustomerMarket) (players : List Player) (gtl : Int)
    (pn fn : String)
    (hnames : (players.map Player.name).Nodup)
    (hkeys : ∀ pl ∈ players, (pl.manufactured_phones.map Prod.fst).Nodup)
    (hcounts : ∀ g ∈ m.customer_groups, 0 ≤ g.count) :
    manufOfL (m.simulate_purchases players gtl).2 pn fn ≤ manufOfL players pn fn ∧
    (0 ≤ manufOfL players pn fn →
      0 ≤ manufOfL (m.simulate_purchases players gtl).2 pn fn) := by
  unfold CustomerMarket.simulate_purchases
  dsimp only
  split_ifs with hemp
  · exact ⟨le_refl _, fun h => h⟩
  · have hkeep : ∀ (rc : List (String × Int)) (ps : List Player),
        manufOfL (ps.map (fun player =>
          applyRetentionToPlayer player (dictGetD rc player.name 0))) pn fn
          = manufOfL ps pn fn := by
      intro rc ps
      apply manufOfL_map_keep
      · intro pl; unfold applyRetentionToPlayer; split_ifs <;> rfl
      · intro pl; unfold applyRetentionToPlayer; split_ifs <;> rfl
    rw [hkeep]
    exact pass_manufOf _ _ pn fn (availablePhones_names players) hcounts
      (trackerInit_value players pn fn hnames hkeys)

/-- C4, witness: the month-14 run of the C1 scenario, for manufacturer "A"
and product "P1" (100 units at the start, 12 sold). -/
theorem C4_inventory_safe_witness :
    manufOfL (mC1.simulate_purchases [pC1] 1).2 "A" "P1" ≤ manufOfL [pC1] "A" "P1" ∧
    (0 ≤ manufOfL [pC1] "A" "P1" →
      0 ≤ manufOfL (mC1.simulate_purchases [pC1] 1).2 "A" "P1") :=
  C4_inventory_safe mC1 [pC1] 1 "A" "P1" (by decide) (by decide) (by decide)

end PhoneSim



